import Mathlib

/-!
# shpool-vterm: a shallow embedding of the screen state machine

This file embeds the core of the `shpool-vterm` headless terminal emulator
(`src/lib.rs`, `src/term.rs`, `src/cell.rs`, `src/line.rs`, `src/scrollback.rs`,
`src/altscreen.rs`, `src/screen.rs`) in Lean and proves or refutes the
specification claims about it.

Conventions of the embedding:
* Rust `usize` values become `Nat`; `usize` subtraction that the source
  guards (or that would panic) is modelled explicitly, never silently
  truncated unless the source cannot underflow there.
* Byte buffers (`Vec<u8>`) become `List Nat`; the buffer-extending
  `term_input_into(&self, buf)` methods become functions returning the byte
  list they append, with call sites concatenating.
* Fallible operations return `Except Unit _` (the error payload of
  `anyhow::Error` is irrelevant to behaviour) or `Option _`.
* A Rust panic, assertion failure, index out of bounds, or non-terminating
  loop is modelled as `none` / a dedicated `panic` constructor.
-/

namespace VT

/-- Terminal size (src/lib.rs `Size`). -/
structure Size where
  width : Nat
  height : Nat
deriving DecidableEq, Repr

/-- A position within the terminal, zero indexed (src/term.rs `Pos`). -/
structure Pos where
  row : Nat
  col : Nat
deriving DecidableEq, Repr

/-- `Pos::clamp_to` for the whole-window region (src/term.rs lines 40-62 with
the `Region` instance for `Size`, which has `row_bounds = (0, height)` and
`col_bounds = (0, width)`). The lower-bound branches are vacuous at 0. The
source would underflow (panic) on a zero-sized region; Nat subtraction stands
in, and callers in the claims keep both dimensions positive. -/
def Pos.clampTo (p : Pos) (s : Size) : Pos :=
  ⟨if p.row ≥ s.height then s.height - 1 else p.row,
   if p.col ≥ s.width then s.width - 1 else p.col⟩

/-- Cell colors (src/term.rs `Color`). -/
inductive Color where
  | default
  | idx (i : Nat)
  | rgb (r g b : Nat)
deriving DecidableEq, Repr

inductive UnderlineStyle where
  | single
  | double
deriving DecidableEq, Repr

inductive FontWeight where
  | bold
  | faint
deriving DecidableEq, Repr

inductive BlinkStyle where
  | slow
  | rapid
deriving DecidableEq, Repr

inductive FrameStyle where
  | frame
  | circle
deriving DecidableEq, Repr

/-- Per-cell attributes (src/term.rs `Attrs`). `{}` is `Attrs::default()`. -/
structure Attrs where
  fgcolor : Color := .default
  bgcolor : Color := .default
  font_weight : Option FontWeight := none
  italic : Bool := false
  underline : Option UnderlineStyle := none
  inverse : Bool := false
  blink : Option BlinkStyle := none
  conceal : Bool := false
  strikethrough : Bool := false
  framed : Option FrameStyle := none
  overline : Bool := false
deriving DecidableEq, Repr

instance : Inhabited Attrs := ⟨{}⟩

/-- Typed control codes (src/term.rs `ControlCode`), without the
`__NonExhaustive` marker variant, which is never constructed. -/
inductive ControlCode where
  | csi (params : List (List Nat)) (intermediates : List Nat) (action : Char)
  | esc (intermediates : List Nat) (byte : Nat)
deriving DecidableEq, Repr

namespace ControlCodes

/-- The constant dictionary src/term.rs `control_codes()`, one definition per
field, plus the parameterised constructors. -/
def clear_screen : ControlCode := .csi [] [] 'J'

def clear_attrs : ControlCode := .csi [] [] 'm'

def fgcolor_default : ControlCode := .csi [[39]] [] 'm'

def bgcolor_default : ControlCode := .csi [[49]] [] 'm'

def underline : ControlCode := .csi [[4]] [] 'm'

def double_underline : ControlCode := .csi [[21]] [] 'm'

def undo_underline : ControlCode := .csi [[24]] [] 'm'

def bold : ControlCode := .csi [[1]] [] 'm'

def faint : ControlCode := .csi [[2]] [] 'm'

def reset_font_weight : ControlCode := .csi [[22]] [] 'm'

def italic : ControlCode := .csi [[3]] [] 'm'

def undo_italic : ControlCode := .csi [[23]] [] 'm'

def inverse : ControlCode := .csi [[7]] [] 'm'

def undo_inverse : ControlCode := .csi [[27]] [] 'm'

def slow_blink : ControlCode := .csi [[5]] [] 'm'

def rapid_blink : ControlCode := .csi [[6]] [] 'm'

def undo_blink : ControlCode := .csi [[25]] [] 'm'

def conceal : ControlCode := .csi [[8]] [] 'm'

def undo_conceal : ControlCode := .csi [[28]] [] 'm'

def strikethrough : ControlCode := .csi [[9]] [] 'm'

def undo_strikethrough : ControlCode := .csi [[29]] [] 'm'

def framed : ControlCode := .csi [[51]] [] 'm'

def encircled : ControlCode := .csi [[52]] [] 'm'

def undo_framed : ControlCode := .csi [[54]] [] 'm'

def overline : ControlCode := .csi [[53]] [] 'm'

def undo_overline : ControlCode := .csi [[55]] [] 'm'

/-- `ControlCodes::fgcolor_idx` (src/term.rs lines 819-839). -/
def fgcolor_idx (i : Nat) : ControlCode :=
  if i < 8 then .csi [[i + 30]] [] 'm'
  else if i < 16 then .csi [[i + 82]] [] 'm'
  else .csi [[38], [5], [i]] [] 'm'

/-- `ControlCodes::fgcolor_rgb`. -/
def fgcolor_rgb (r g b : Nat) : ControlCode := .csi [[38], [2], [r], [g], [b]] [] 'm'

/-- `ControlCodes::bgcolor_idx`. -/
def bgcolor_idx (i : Nat) : ControlCode :=
  if i < 8 then .csi [[i + 40]] [] 'm'
  else if i < 16 then .csi [[i + 92]] [] 'm'
  else .csi [[48], [5], [i]] [] 'm'

/-- `ControlCodes::bgcolor_rgb`. -/
def bgcolor_rgb (r g b : Nat) : ControlCode := .csi [[48], [2], [r], [g], [b]] [] 'm'

/-- `ControlCodes::cursor_position` (src/term.rs lines 915-925): row and
column are 1-indexed, and the (1,1) home position is emitted with the
parameters omitted. -/
def cursor_position (row col : Nat) : ControlCode :=
  if row = 1 ∧ col = 1 then .csi [] [] 'H' else .csi [[row], [col]] [] 'H'

/-- `ControlCodes::set_scroll_region` (1-indexed, closed range). -/
def set_scroll_region (top bottom : Nat) : ControlCode := .csi [[top], [bottom]] [] 'r'

end ControlCodes

/-- `Color::fgcode` (src/term.rs lines 1025-1031). -/
def Color.fgcode : Color → ControlCode
  | .default => ControlCodes.fgcolor_default
  | .idx i => ControlCodes.fgcolor_idx i
  | .rgb r g b => ControlCodes.fgcolor_rgb r g b

/-- `Color::bgcode` (src/term.rs lines 1017-1023). -/
def Color.bgcode : Color → ControlCode
  | .default => ControlCodes.bgcolor_default
  | .idx i => ControlCodes.bgcolor_idx i
  | .rgb r g b => ControlCodes.bgcolor_rgb r g b

/-- The accumulator loop of `ControlCode::fuse_csi` (src/term.rs lines
550-600). `cur_params`, `cur_ints`, `cur_action` are the `current_*`
variables; `cur_action = none` is the state with no pending CSI code. -/
def ControlCode.fuse_csi_go (cur_params : List (List Nat)) (cur_ints : List Nat)
    (cur_action : Option Char) : List ControlCode → List ControlCode
  | [] =>
    match cur_action with
    | some a => [.csi cur_params cur_ints a]
    | none => []
  | .csi p i a :: rest =>
    match cur_action with
    | some ca =>
      if ca = a ∧ cur_ints = i then
        ControlCode.fuse_csi_go (cur_params ++ p) cur_ints (some ca) rest
      else
        .csi cur_params cur_ints ca :: ControlCode.fuse_csi_go p i (some a) rest
    | none => ControlCode.fuse_csi_go (cur_params ++ p) i (some a) rest
  | .esc i b :: rest =>
    match cur_action with
    | some ca =>
      .csi cur_params cur_ints ca :: .esc i b :: ControlCode.fuse_csi_go [] [] none rest
    | none => .esc i b :: ControlCode.fuse_csi_go [] [] none rest

/-- `ControlCode::fuse_csi` (src/term.rs lines 550-600). -/
def ControlCode.fuse_csi (codes : List ControlCode) : List ControlCode :=
  ControlCode.fuse_csi_go [] [] none codes

/-- Per-dimension code lists pushed by `Attrs::transition_to`
(src/term.rs lines 292-400), in source order. Foreground color block. -/
def segFg (a b : Color) : List ControlCode :=
  if a ≠ b then [b.fgcode] else []

/-- Background color block of `transition_to`. -/
def segBg (a b : Color) : List ControlCode :=
  if a ≠ b then [b.bgcode] else []

/-- Italic block of `transition_to`. -/
def segItalic (a b : Bool) : List ControlCode :=
  if a && !b then [ControlCodes.undo_italic]
  else if !a && b then [ControlCodes.italic]
  else []

/-- Underline block of `transition_to`. -/
def segUnderline : Option UnderlineStyle → Option UnderlineStyle → List ControlCode
  | none, none => []
  | some _, none => [ControlCodes.undo_underline]
  | none, some .single => [ControlCodes.underline]
  | none, some .double => [ControlCodes.double_underline]
  | some _, some .single => [ControlCodes.undo_underline, ControlCodes.underline]
  | some _, some .double => [ControlCodes.undo_underline, ControlCodes.double_underline]

/-- Inverse block of `transition_to`. -/
def segInverse (a b : Bool) : List ControlCode :=
  if a && !b then [ControlCodes.undo_inverse]
  else if !a && b then [ControlCodes.inverse]
  else []

/-- Font weight block of `transition_to`. -/
def segFontWeight : Option FontWeight → Option FontWeight → List ControlCode
  | none, none => []
  | some _, none => [ControlCodes.reset_font_weight]
  | none, some .bold => [ControlCodes.bold]
  | none, some .faint => [ControlCodes.faint]
  | some _, some .bold => [ControlCodes.reset_font_weight, ControlCodes.bold]
  | some _, some .faint => [ControlCodes.reset_font_weight, ControlCodes.faint]

/-- Blink block of `transition_to`. -/
def segBlink : Option BlinkStyle → Option BlinkStyle → List ControlCode
  | none, none => []
  | some _, none => [ControlCodes.undo_blink]
  | none, some .slow => [ControlCodes.slow_blink]
  | none, some .rapid => [ControlCodes.rapid_blink]
  | some _, some .slow => [ControlCodes.undo_blink, ControlCodes.slow_blink]
  | some _, some .rapid => [ControlCodes.undo_blink, ControlCodes.rapid_blink]

/-- Conceal block of `transition_to`. -/
def segConceal (a b : Bool) : List ControlCode :=
  if a && !b then [ControlCodes.undo_conceal]
  else if !a && b then [ControlCodes.conceal]
  else []

/-- Strikethrough block of `transition_to`. -/
def segStrikethrough (a b : Bool) : List ControlCode :=
  if a && !b then [ControlCodes.undo_strikethrough]
  else if !a && b then [ControlCodes.strikethrough]
  else []

/-- Framed block of `transition_to`. -/
def segFramed : Option FrameStyle → Option FrameStyle → List ControlCode
  | none, none => []
  | some _, none => [ControlCodes.undo_framed]
  | none, some .frame => [ControlCodes.framed]
  | none, some .circle => [ControlCodes.encircled]
  | some _, some .frame => [ControlCodes.undo_framed, ControlCodes.framed]
  | some _, some .circle => [ControlCodes.undo_framed, ControlCodes.encircled]

/-- Overline block of `transition_to`. -/
def segOverline (a b : Bool) : List ControlCode :=
  if a && !b then [ControlCodes.undo_overline]
  else if !a && b then [ControlCodes.overline]
  else []

/-- `Attrs::transition_to` (src/term.rs lines 292-400): the per-dimension
blocks push codes in source order (fg, bg, italic, underline, inverse, font
weight, blink, conceal, strikethrough, framed, overline) and the result is
passed through `ControlCode::fuse_csi`. -/
def Attrs.transition_to (a b : Attrs) : List ControlCode :=
  ControlCode.fuse_csi
    (segFg a.fgcolor b.fgcolor ++ segBg a.bgcolor b.bgcolor ++
     segItalic a.italic b.italic ++ segUnderline a.underline b.underline ++
     segInverse a.inverse b.inverse ++ segFontWeight a.font_weight b.font_weight ++
     segBlink a.blink b.blink ++ segConceal a.conceal b.conceal ++
     segStrikethrough a.strikethrough b.strikethrough ++
     segFramed a.framed b.framed ++ segOverline a.overline b.overline)

/-- Decimal digits of a number as ASCII bytes (the `itoa` crate used by
`extend_itoa`, src/term.rs lines 1044-1047). -/
def natDecimalBytes (n : Nat) : List Nat :=
  (Nat.toDigits 10 n).map Char.toNat

/-- UTF-8 encoding of a character (`char::encode_utf8`). -/
def utf8Bytes (c : Char) : List Nat :=
  let n := c.toNat
  if n < 0x80 then [n]
  else if n < 0x800 then [0xc0 + n / 64, 0x80 + n % 64]
  else if n < 0x10000 then [0xe0 + n / 4096, 0x80 + n / 64 % 64, 0x80 + n % 64]
  else [0xf0 + n / 262144, 0x80 + n / 4096 % 64, 0x80 + n / 64 % 64, 0x80 + n % 64]

/-- Serialisation of a control code (src/term.rs `impl AsTermInput for
ControlCode`, lines 481-512): `ESC [ intermediates p1a:p1b;p2 action` for CSI
(`;` between parameter groups, `:` between subparameters), `ESC intermediates
byte` for ESC. -/
def ControlCode.term_input_into : ControlCode → List Nat
  | .csi params ints action =>
    [0x1b, 0x5b] ++ ints ++
      List.intercalate [0x3b] (params.map fun g => List.intercalate [0x3a] (g.map natDecimalBytes)) ++
      utf8Bytes action
  | .esc ints b => [0x1b] ++ ints ++ [b]

/-- The byte sequence of a list of control codes. -/
def codesBytes (codes : List ControlCode) : List Nat :=
  (codes.map ControlCode.term_input_into).flatten

/-- `Crlf` (src/term.rs lines 1034-1042). -/
def crlfBytes : List Nat := [0x0d, 0x0a]

/-- Display width of a character, modelling the external `unicode_width`
crate (`UnicodeWidthChar::width`): `none` for control characters, `some 0`
for combining marks and zero-width characters, `some 2` for wide East-Asian
and emoji codepoints (abridged ranges, enough for the inputs used in this
file), `some 1` otherwise. -/
def charWidth (c : Char) : Option Nat :=
  let n := c.toNat
  if n < 0x20 ∨ n = 0x7f ∨ (0x80 ≤ n ∧ n < 0xa0) then none
  else if (0x300 ≤ n ∧ n ≤ 0x36f) ∨ (0x200b ≤ n ∧ n ≤ 0x200f) then some 0
  else if (0x1100 ≤ n ∧ n ≤ 0x115f) ∨ (0x2e80 ≤ n ∧ n ≤ 0x303e) ∨
      (0x3041 ≤ n ∧ n ≤ 0x33ff) ∨ (0x3400 ≤ n ∧ n ≤ 0x4dbf) ∨
      (0x4e00 ≤ n ∧ n ≤ 0x9fff) ∨ (0xac00 ≤ n ∧ n ≤ 0xd7a3) ∨
      (0xf900 ≤ n ∧ n ≤ 0xfaff) ∨ (0x1f300 ≤ n ∧ n ≤ 0x1faff) then some 2
  else some 1

/-- A cell in the grid (src/cell.rs `Cell`). The `SmallVec` cluster becomes a
plain list. -/
structure Cell where
  grapheme_cluster : List Char
  width : Nat
  empty : Bool
  wide_padding : Bool
  attrs : Attrs
deriving DecidableEq, Repr

/-- `Cell::new` (src/cell.rs lines 64-78). The source panics both on control
characters ("control chars cannot create cells") and zero-width characters
("zero width chars cannot create cells"); `none` models those panics. -/
def Cell.new? (c : Char) (attrs : Attrs) : Option Cell :=
  match charWidth c with
  | none => none
  | some 0 => none
  | some w => some ⟨[c], w, false, false, attrs⟩

/-- `Cell::empty` (src/cell.rs lines 80-88), also the shared `cell::empty()`
singleton value. -/
def Cell.emptyCell : Cell := ⟨[], 0, true, false, {}⟩

/-- `Cell::empty_with_attrs` (src/cell.rs lines 90-92). -/
def Cell.empty_with_attrs (attrs : Attrs) : Cell := ⟨[], 0, true, false, attrs⟩

/-- `Cell::wide_pad` (src/cell.rs lines 94-102). -/
def Cell.wide_pad : Cell := ⟨[], 0, true, true, {}⟩

/-- `Cell::add_char` (src/cell.rs lines 104-109): it runs
`assert!(UnicodeWidthChar::width(c).unwrap_or(0) > 0, "non-zero width char
added to cell")` and then pushes `c` onto the grapheme cluster. `none` models
the assertion failure (panic): the assertion passes only for characters of
positive display width and fires on zero-width and control characters. -/
def Cell.add_char? (cell : Cell) (c : Char) : Option Cell :=
  if (charWidth c).getD 0 > 0 then
    some { cell with grapheme_cluster := cell.grapheme_cluster ++ [c] }
  else none

/-- Serialisation of a cell (src/cell.rs `impl AsTermInput for Cell`, lines
124-139): the UTF-8 bytes of the cluster, plus a space for an empty
non-wide-padding cell. -/
def Cell.term_input_into (cell : Cell) : List Nat :=
  (cell.grapheme_cluster.map utf8Bytes).flatten ++
    (if cell.empty ∧ ¬ cell.wide_padding then [0x20] else [])

/-- A fixed-width row of cells (src/line.rs `Line`). -/
structure Line where
  cells : List Cell
  is_wrapped : Bool
deriving DecidableEq, Repr

/-- `Line::new` (src/line.rs lines 85-87). -/
def Line.new : Line := ⟨[], false⟩

/-- `Line::get_cell` (src/line.rs lines 91-101). -/
def Line.get_cell (l : Line) (width col : Nat) : Option Cell :=
  if col ≥ width then none
  else if col ≥ l.cells.length then some Cell.emptyCell
  else some (l.cells.getD col Cell.emptyCell)

/-- `Line::set_cell` (src/line.rs lines 104-119). The error payload of the
`anyhow` out-of-bounds error is dropped. -/
def Line.set_cell (l : Line) (width col : Nat) (cell : Cell) : Except Unit Line :=
  if col ≥ width then .error ()
  else if col ≥ l.cells.length then
    .ok ⟨l.cells ++ List.replicate (col - l.cells.length) Cell.emptyCell ++ [cell], l.is_wrapped⟩
  else .ok ⟨l.cells.set col cell, l.is_wrapped⟩

/-- `Line::truncate` (src/line.rs lines 122-124). -/
def Line.truncate (l : Line) (width : Nat) : Line := ⟨l.cells.take width, l.is_wrapped⟩

/-- `line::Section` (src/line.rs lines 181-185). -/
inductive LineSection where
  | startTo (col : Nat)
  | toEnd (col : Nat)
  | whole
deriving DecidableEq, Repr

/-- `Line::erase` (src/line.rs lines 128-144): `StartTo(col)` overwrites
cells `0..min(col+1, len)` with empty cells in place; `ToEnd(col)` truncates
to `col` and clears the wrap flag; `Whole` truncates to zero and clears the
wrap flag. -/
def Line.erase (l : Line) : LineSection → Line
  | .startTo col =>
    let k := min (col + 1) l.cells.length
    ⟨List.replicate k Cell.emptyCell ++ l.cells.drop k, l.is_wrapped⟩
  | .toEnd col => ⟨l.cells.take col, false⟩
  | .whole => ⟨[], false⟩

/-- `Line::insert_character` (src/line.rs lines 148-152): splice `n` empty
cells at `col` then truncate to `width`. `Vec::splice` panics when `col` is
past the end of the vector; `none` models that panic. -/
def Line.insert_character (l : Line) (width col n : Nat) : Option Line :=
  if col ≤ l.cells.length then
    some ⟨((l.cells.take col ++ List.replicate n Cell.emptyCell) ++ l.cells.drop col).take width,
      l.is_wrapped⟩
  else none

/-- `Line::delete_character` (src/line.rs lines 160-177): `delete_to =
min(len, col + n)`, drain `col..delete_to`, pad with plain empty cells up to
`width - num_to_delete`, then pad with attr-carrying empty cells up to
`width`. When `col > len` the source computes `delete_to - col` on `usize`
and underflows (panic); `none` models that. -/
def Line.delete_character (l : Line) (width col : Nat) (attrs : Attrs) (n : Nat) :
    Option Line :=
  if col ≤ l.cells.length then
    let delete_to := min l.cells.length (col + n)
    let num_to_delete := delete_to - col
    let cells := l.cells.take col ++ l.cells.drop delete_to
    let cells := cells ++ List.replicate (width - num_to_delete - cells.length) Cell.emptyCell
    let cells := cells ++ List.replicate (width - cells.length) (Cell.empty_with_attrs attrs)
    some ⟨cells, l.is_wrapped⟩
  else none

/-- The byte list of the minimal transition between two attribute sets. -/
def transitionBytes (a b : Attrs) : List Nat :=
  codesBytes (a.transition_to b)

/-- The cell-iteration loop of `impl AsTermInput for Line` (src/line.rs lines
56-75): `current` is the `current_attrs` borrow; at the end of the line the
attributes are reset to blank if they are not already blank. -/
def lineBytesGo (current : Attrs) : List Cell → List Nat
  | [] => if current ≠ {} then transitionBytes current {} else []
  | c :: rest =>
    if c.attrs = current then c.term_input_into ++ lineBytesGo current rest
    else transitionBytes current c.attrs ++ c.term_input_into ++ lineBytesGo c.attrs rest

/-- Serialisation of a line (src/line.rs lines 50-76): every line starts from
blank attributes, emits minimal transitions at cell boundaries, and resets to
blank at the end. -/
def Line.term_input_into (l : Line) : List Nat :=
  lineBytesGo {} l.cells

/-- Result of a fallible mutating operation. `ok` is the success state;
`err` carries the (possibly partially mutated) state left behind when the
source returns `Err` to a caller that merely logs a warning; `panic` models a
Rust panic, an out-of-bounds index, or a loop that cannot terminate. -/
inductive WriteRes (α : Type) where
  | ok (a : α)
  | err (a : α)
  | panic
deriving DecidableEq, Repr

/-- The scrollback screen (src/scrollback.rs `Scrollback`). `buf` stores the
bottom line of the window at the head and the top at the end, exactly like
the source `VecDeque` (front = bottom). The source wraps the cursor in a
`Cursor` structure that also carries attributes; only the position is
consulted by the operations embedded here, so the position is stored
directly. -/
structure Scrollback where
  buf : List Line
  lines : Nat
  size : Size
  cursor : Pos
  saved_cursor : Pos
deriving DecidableEq, Repr

/-- `Scrollback::new` (src/scrollback.rs lines 80-94). -/
def Scrollback.new (scrollback_lines : Nat) (size : Size) : Scrollback :=
  ⟨[], scrollback_lines, size, ⟨0, 0⟩, ⟨0, 0⟩⟩

/-- `in_view_scrollback_len` computed in `get_line` / `get_line_mut`
(src/scrollback.rs lines 260-288): the number of stored lines that are
logically in view. -/
def Scrollback.in_view_len (sb : Scrollback) : Nat :=
  min sb.buf.length sb.size.height

/-- `Scrollback::get_line` (src/scrollback.rs lines 260-273): row 0 is the
top of the visible window; the storage index of row `r` is
`in_view_len - 1 - r`; rows at or beyond `in_view_len` have no storage. -/
def Scrollback.get_line (sb : Scrollback) (row : Nat) : Option Line :=
  if row ≥ sb.in_view_len then none
  else some (sb.buf.getD (sb.in_view_len - 1 - row) Line.new)

/-- The `get_line_mut`-based mutation pattern: apply `f` to the stored line
of `row` when it exists, otherwise leave the buffer unchanged. -/
def Scrollback.modify_line (sb : Scrollback) (row : Nat) (f : Line → Line) : Scrollback :=
  if row ≥ sb.in_view_len then sb
  else
    let idx := sb.in_view_len - 1 - row
    { sb with buf := sb.buf.set idx (f (sb.buf.getD idx Line.new)) }

/-- `Scrollback::set` (src/scrollback.rs lines 134-141): a missing line is a
silent no-op (`Ok`); a stored line forwards `Line::set_cell`, whose
out-of-bounds error propagates. -/
def Scrollback.set (sb : Scrollback) (pos : Pos) (cell : Cell) : Except Unit Scrollback :=
  if pos.row ≥ sb.in_view_len then .ok sb
  else
    let idx := sb.in_view_len - 1 - pos.row
    match (sb.buf.getD idx Line.new).set_cell sb.size.width pos.col cell with
    | .error e => .error e
    | .ok l => .ok { sb with buf := sb.buf.set idx l }

/-- `Scrollback::add_line` (src/scrollback.rs lines 194-199): push the line
at the front (bottom) and pop from the back (top) while the buffer exceeds
`lines`. -/
def Scrollback.add_line (sb : Scrollback) (l : Line) : Scrollback :=
  { sb with buf := (l :: sb.buf).take sb.lines }

/-- The `while self.buf.len() < self.cursor.pos.row + 1` padding loop at the
top of `write_at_cursor` (src/scrollback.rs lines 150-155). `add_line` caps
the buffer length at `lines`, so when `cursor.row + 1 > lines` and the
buffer is short the loop never terminates; `none` models that hang. -/
def Scrollback.ensure_lines (sb : Scrollback) : Option Scrollback :=
  if sb.buf.length ≥ sb.cursor.row + 1 then some sb
  else if sb.cursor.row + 1 ≤ sb.lines then
    some { sb with buf := List.replicate (sb.cursor.row + 1 - sb.buf.length) Line.new ++ sb.buf }
  else none

/-- The wide-padding loop at the end of `write_at_cursor` (src/scrollback.rs
lines 174-189): write `npad` wide-padding cells, advancing the column, with
`assert!(col < width)` before each write (`panic` on failure). -/
def Scrollback.place_pads (sb : Scrollback) : Nat → WriteRes Scrollback
  | 0 => .ok sb
  | npad + 1 =>
    if sb.cursor.col ≥ sb.size.width then .panic
    else
      match sb.set sb.cursor Cell.wide_pad with
      | .error _ => .err sb
      | .ok sb2 =>
        Scrollback.place_pads { sb2 with cursor := ⟨sb2.cursor.row, sb2.cursor.col + 1⟩ } npad

/-- The placement tail of `write_at_cursor` (src/scrollback.rs lines
174-191): write the main cell at the cursor, advance the column, then write
the wide-padding cells. -/
def Scrollback.place (sb : Scrollback) (cell : Cell) : WriteRes Scrollback :=
  let npad := if cell.width > 1 then cell.width - 1 else 0
  match sb.set sb.cursor cell with
  | .error _ => .err sb
  | .ok sb2 =>
    Scrollback.place_pads { sb2 with cursor := ⟨sb2.cursor.row, sb2.cursor.col + 1⟩ } npad

/-- `Scrollback::write_at_cursor` (src/scrollback.rs lines 145-192). -/
def Scrollback.write_at_cursor (sb0 : Scrollback) (cell : Cell) : WriteRes Scrollback :=
  if sb0.size.width < 1 then .err sb0
  else
    match sb0.ensure_lines with
    | none => .panic
    | some sb1 =>
      if sb1.cursor.col + cell.width ≥ sb1.size.width + 1 then
        if sb1.cursor.row ≥ sb1.in_view_len then .err sb1
        else
          let sb2 := sb1.modify_line sb1.cursor.row fun l => { l with is_wrapped := true }
          let sb2 := { sb2 with cursor := ⟨sb2.cursor.row + 1, 0⟩ }
          let sb2 :=
            if sb2.buf.length < sb2.cursor.row + 1 then sb2.add_line Line.new else sb2
          sb2.place cell
      else sb1.place cell

/-- `slice::chunks` on a cell slice: pieces of `w` cells, the last possibly
shorter. `slice::chunks` panics for `w = 0`, which the source can only reach
by resizing to a zero-width terminal; the empty list stands in for that
unreachable case. The fuel argument makes the recursion structural; `w` is
consumed from the front each step so `cs.length` is always enough fuel. -/
def chunksOfCellsGo (w : Nat) : Nat → List Cell → List (List Cell)
  | 0, _ => []
  | _, [] => []
  | fuel + 1, c :: cs => (c :: cs).take w :: chunksOfCellsGo w fuel ((c :: cs).drop w)

def chunksOfCells (w : Nat) (cs : List Cell) : List (List Cell) :=
  if w = 0 then [] else chunksOfCellsGo w cs.length cs

/-- The `remaining_chunks` loop inside `Scrollback::reflow`
(src/scrollback.rs lines 232-246): `logical_rest` is what is left of the
`logical_line` deque (used for `!logical_line.is_empty()`), `line` is the
mutable accumulator, `acc` is `new_scrollback` (head = front = bottom).
Each chunk is appended to `line`, the wrap flag is overwritten (true for all
but the last chunk, otherwise "is there more of the logical line"), and the
line is pushed and replaced by a fresh one when it reaches the new width. -/
def Reflow.inner (w : Nat) (logical_rest : List Line) (acc : List Line) (line : Line) :
    List (List Cell) → List Line × Line
  | [] => (acc, line)
  | c :: cs =>
    let line := { cells := line.cells ++ c,
                  is_wrapped := if cs.isEmpty then !logical_rest.isEmpty else true }
    if line.cells.length = w then Reflow.inner w logical_rest (line :: acc) Line.new cs
    else Reflow.inner w logical_rest acc line cs

/-- The `while let Some(chunk) = logical_line.pop_front()` loop inside
`Scrollback::reflow` (src/scrollback.rs lines 215-248). -/
def Reflow.chunk_loop (w : Nat) (acc : List Line) (line : Line) :
    List Line → List Line × Line
  | [] => (acc, line)
  | chunk :: rest =>
    let remainder := w - line.cells.length
    if chunk.cells.length < remainder then
      let line := { line with cells := line.cells ++ chunk.cells }
      if line.cells.length = w then Reflow.chunk_loop w (line :: acc) Line.new rest
      else Reflow.chunk_loop w acc line rest
    else
      let full : Line := ⟨line.cells ++ chunk.cells.take remainder,
        decide (chunk.cells.length > remainder) || !rest.isEmpty⟩
      let rem := chunksOfCells w (chunk.cells.drop remainder)
      let p := Reflow.inner w rest (full :: acc) Line.new rem
      Reflow.chunk_loop w p.1 p.2 rest

/-- The outer `while let Some(grid_line) = self.buf.pop_back()` loop of
`Scrollback::reflow` (src/scrollback.rs lines 206-255). `input` is the
buffer in pop order (top of screen first, i.e. `buf.reverse`); `logical` is
the `logical_line` deque; `acc` is `new_scrollback` built by `push_front`
(cons). A trailing run of wrapped lines with no unwrapped terminator is
dropped when the loop ends, exactly as in the source. -/
def Reflow.outer (w : Nat) : List Line → List Line → List Line → List Line
  | [], _logical, acc => acc
  | l :: ls, logical, acc =>
    let logical := logical ++ [l]
    if l.is_wrapped then Reflow.outer w ls logical acc
    else
      let p := Reflow.chunk_loop w acc Line.new logical
      let acc := if p.2.cells.length ≠ 0 then p.2 :: p.1 else p.1
      Reflow.outer w ls [] acc

/-- `Scrollback::reflow` (src/scrollback.rs lines 201-258). -/
def Scrollback.reflow (sb : Scrollback) (new_width : Nat) : Scrollback :=
  { sb with buf := Reflow.outer new_width sb.buf.reverse [] [] }

/-- `Scrollback::resize` (src/scrollback.rs lines 103-106). -/
def Scrollback.resize (sb : Scrollback) (size : Size) : Scrollback :=
  { sb.reflow size.width with size := size }

/-- `Scrollback::set_scrollback_lines` (src/scrollback.rs lines 117-122). -/
def Scrollback.set_scrollback_lines (sb : Scrollback) (scrollback_lines : Nat) : Scrollback :=
  { sb with buf := sb.buf.take scrollback_lines, lines := scrollback_lines }

/-- Serialisation of the scrollback (src/scrollback.rs lines 66-75): lines
from the top of the buffer down, separated by CRLF. -/
def Scrollback.term_input_into (sb : Scrollback) : List Nat :=
  List.intercalate crlfBytes (sb.buf.reverse.map Line.term_input_into)

/-- `ScrollRegion` (src/term.rs lines 90-102). -/
inductive ScrollRegion where
  | trackSize
  | window (top bottom : Nat)
deriving DecidableEq, Repr

/-- `OriginMode` (src/term.rs lines 145-153). -/
inductive OriginMode where
  | term
  | scrollRegion
deriving DecidableEq, Repr

/-- Serialisation of a scroll region (src/term.rs lines 125-134): nothing
for `TrackSize`, `CSI top+1;bottom r` for a window. -/
def ScrollRegion.term_input_into : ScrollRegion → List Nat
  | .trackSize => []
  | .window top bottom => (ControlCodes.set_scroll_region (top + 1) bottom).term_input_into

/-- The alt screen (src/altscreen.rs `AltScreen`): `buf[0]` is the top row
(the opposite orientation from `Scrollback`) and `buf.length` should always
equal the screen height. -/
structure AltScreen where
  buf : List Line
  scroll_region : ScrollRegion
  origin_mode : OriginMode
deriving DecidableEq, Repr

/-- `AltScreen::new` (src/altscreen.rs lines 42-52). -/
def AltScreen.new (size : Size) : AltScreen :=
  ⟨List.replicate size.height Line.new, .trackSize, .term⟩

/-- `AltScreen::write_at_cursor` (src/altscreen.rs lines 56-88). The indexing
`self.buf[cursor.row]` panics when the row is outside the buffer. On a
`set_cell` error nothing has been mutated and the error propagates. After a
successful write the cursor advances by the cell width; reaching the right
edge wraps to the next row, and overflowing the bottom scrolls by popping
the top line and pushing a fresh one at the bottom; finally the cursor is
clamped to the size. -/
def AltScreen.write_at_cursor (a : AltScreen) (size : Size) (cursor : Pos) (cell : Cell) :
    WriteRes (AltScreen × Pos) :=
  if size.width < 1 then .err (a, cursor)
  else if cursor.row ≥ a.buf.length then .panic
  else
    match (a.buf.getD cursor.row Line.new).set_cell size.width cursor.col cell with
    | .error _ => .err (a, cursor)
    | .ok l =>
      let a := { a with buf := a.buf.set cursor.row l }
      let col := cursor.col + cell.width
      let p : AltScreen × Pos :=
        if col ≥ size.width then
          let cursor : Pos := ⟨cursor.row + 1, 0⟩
          if cursor.row ≥ size.height then
            ({ a with buf := a.buf.drop 1 ++ [Line.new] }, cursor)
          else (a, cursor)
        else (a, ⟨cursor.row, col⟩)
      .ok (p.1, p.2.clampTo size)

/-- `AltScreen::get_line_mut` (src/altscreen.rs lines 118-121) used through
the mutation pattern: `assert!(row <= buf.len())` followed by `&mut buf[row]`
panics for `row ≥ buf.len()`; `none` models that panic. -/
def AltScreen.modify_line (a : AltScreen) (row : Nat) (f : Line → Line) : Option AltScreen :=
  if row ≥ a.buf.length then none
  else some { a with buf := a.buf.set row (f (a.buf.getD row Line.new)) }

/-- Apply `f` to the lines with indices in `[s, e)`. The source loops index
the buffer directly; for the reachable states of the dispatcher the range
stays within the buffer. -/
def mapRange (l : List Line) (s e : Nat) (f : Line → Line) : List Line :=
  l.mapIdx fun i x => if s ≤ i ∧ i < e then f x else x

/-- `AltScreen::erase_to_end` (src/altscreen.rs lines 127-138): truncate the
cursor line at the cursor column, then truncate to zero every line from the
next row to the bottom of the effective region (the scroll region bottom
only under `OriginMode::ScrollRegion`). -/
def AltScreen.erase_to_end (a : AltScreen) (cursor : Pos) : Option AltScreen :=
  if cursor.row ≥ a.buf.length then none
  else
    let a := { a with
      buf := a.buf.set cursor.row ((a.buf.getD cursor.row Line.new).truncate cursor.col) }
    let e := match a.origin_mode, a.scroll_region with
      | .scrollRegion, .window _ bottom => bottom
      | _, _ => a.buf.length
    some { a with buf := mapRange a.buf (cursor.row + 1) e fun l => l.truncate 0 }

/-- `AltScreen::erase_from_start` (src/altscreen.rs lines 140-150). -/
def AltScreen.erase_from_start (a : AltScreen) (cursor : Pos) : Option AltScreen :=
  if cursor.row ≥ a.buf.length then none
  else
    let s := match a.origin_mode, a.scroll_region with
      | .scrollRegion, .window top _ => top
      | _, _ => 0
    let a := { a with buf := mapRange a.buf s cursor.row fun l => l.truncate 0 }
    some { a with
      buf := a.buf.set cursor.row ((a.buf.getD cursor.row Line.new).erase (.startTo cursor.col)) }

/-- `AltScreen::erase` (src/altscreen.rs lines 152-161). -/
def AltScreen.erase (a : AltScreen) : AltScreen :=
  let p : Nat × Nat := match a.origin_mode, a.scroll_region with
    | .scrollRegion, .window top bottom => (top, bottom)
    | _, _ => (0, a.buf.length)
  { a with buf := mapRange a.buf p.1 p.2 fun l => l.truncate 0 }

/-- Serialisation of the alt screen (src/altscreen.rs lines 233-244): lines
top to bottom separated by CRLF, then the scroll region restore code. -/
def AltScreen.term_input_into (a : AltScreen) : List Nat :=
  List.intercalate crlfBytes (a.buf.map Line.term_input_into) ++
    a.scroll_region.term_input_into

/-- Modelled from the spec: the width-parameterised scrollback grid that
`Screen` (src/screen.rs) dispatches to. Its implementation file is missing
from src/ — the in-tree src/scrollback.rs is an older revision that carries
its own cursor and size, while src/screen.rs calls
`Scrollback::new(scrollback_lines)`, `write_at_cursor(size, cursor, cell) ->
Result<Pos>`, `get_line(size, row)`, `erase_to_end(size, cursor)` and
friends. The grid is modelled from spec sections 4.4 (cursor advance / wrap,
addressing, erase operations) together with the in-tree precursor; the
dispatcher in src/lib.rs never configures a scroll region or origin mode on
the scrollback screen, so the effective region is always the whole window
(spec 4.4: the row range is `[0, height)` unless both a window region and
`OriginMode::ScrollRegion` are in effect). -/
structure SGrid where
  buf : List Line
  lines : Nat
deriving DecidableEq, Repr

def SGrid.in_view_len (g : SGrid) (size : Size) : Nat :=
  min g.buf.length size.height

/-- Modelled from the spec (section 4.4 Addressing): the stored line of
visible row `row`, `grid_start - 1 - row` from the front. -/
def SGrid.get_line (g : SGrid) (size : Size) (row : Nat) : Option Line :=
  if row ≥ g.in_view_len size then none
  else some (g.buf.getD (g.in_view_len size - 1 - row) Line.new)

def SGrid.modify_view_line (g : SGrid) (size : Size) (row : Nat) (f : Line → Line) : SGrid :=
  if row ≥ g.in_view_len size then g
  else
    let idx := g.in_view_len size - 1 - row
    { g with buf := g.buf.set idx (f (g.buf.getD idx Line.new)) }

/-- Modelled from the spec: `set` on the missing grid, mirroring the in-tree
precursor `Scrollback::set` — a missing line is a silent no-op, a stored
line forwards `Line::set_cell`. -/
def SGrid.set (g : SGrid) (size : Size) (pos : Pos) (cell : Cell) : Except Unit SGrid :=
  if pos.row ≥ g.in_view_len size then .ok g
  else
    let idx := g.in_view_len size - 1 - pos.row
    match (g.buf.getD idx Line.new).set_cell size.width pos.col cell with
    | .error e => .error e
    | .ok l => .ok { g with buf := g.buf.set idx l }

/-- Modelled from the spec (section 4.4 step 2): prepend a new empty line,
scrolling the oldest off when the buffer would exceed `lines`. -/
def SGrid.add_line (g : SGrid) (l : Line) : SGrid :=
  { g with buf := (l :: g.buf).take g.lines }

/-- Modelled from the spec: mark the stored line of `row` as wrapped. -/
def SGrid.mark_wrapped (g : SGrid) (size : Size) (row : Nat) : SGrid :=
  g.modify_view_line size row fun l => { l with is_wrapped := true }

/-- Modelled from the spec (section 4.4, Cursor advance / wrap, steps 1-6):
pending wrap at `col ≥ width`; scroll when the row falls below the window;
lazily allocate storage; break before a wide cell that would straddle the
right edge; place the cell, advance, and place a wide-padding cell after a
wide cell. Degenerate zero-width grids fail with a domain error (spec
section 7). -/
def SGrid.write_at_cursor (g : SGrid) (size : Size) (cursor : Pos) (cell : Cell) :
    WriteRes (SGrid × Pos) :=
  if size.width < 1 then .err (g, cursor)
  else
    let p : SGrid × Pos :=
      if cursor.col ≥ size.width then
        (g.mark_wrapped size cursor.row, ⟨cursor.row + 1, 0⟩)
      else (g, cursor)
    let p : SGrid × Pos :=
      if p.2.row ≥ size.height then
        (p.1.add_line Line.new, ⟨p.2.row - 1, p.2.col⟩)
      else p
    let p : SGrid × Pos :=
      if p.1.buf.length < p.2.row + 1 then
        ({ p.1 with buf := List.replicate (p.2.row + 1 - p.1.buf.length) Line.new ++ p.1.buf },
         p.2)
      else p
    let p : SGrid × Pos :=
      if cell.width ≥ 2 ∧ p.2.col + cell.width > size.width then
        let q : SGrid × Pos := (p.1.mark_wrapped size p.2.row, ⟨p.2.row + 1, 0⟩)
        let q : SGrid × Pos :=
          if q.2.row ≥ size.height then
            (q.1.add_line Line.new, ⟨q.2.row - 1, q.2.col⟩)
          else q
        if q.1.buf.length < q.2.row + 1 then
          ({ q.1 with buf := List.replicate (q.2.row + 1 - q.1.buf.length) Line.new ++ q.1.buf },
           q.2)
        else q
      else p
    match p.1.set size p.2 cell with
    | .error _ => .err (p.1, p.2)
    | .ok g2 =>
      let cur : Pos := ⟨p.2.row, p.2.col + 1⟩
      if cell.width ≥ 2 then
        match g2.set size cur Cell.wide_pad with
        | .error _ => .err (g2, cur)
        | .ok g3 => .ok (g3, ⟨cur.row, cur.col + 1⟩)
      else .ok (g2, cur)

/-- Modelled from the spec (sections 4.4-4.5, corroborated by the repo's
frag tests): erase from the cursor to the end of the window — truncate the
cursor line at the cursor column and truncate to zero every visible line
below it. -/
def SGrid.erase_to_end (g : SGrid) (size : Size) (cursor : Pos) : SGrid :=
  let g := g.modify_view_line size cursor.row fun l => l.truncate cursor.col
  (List.range size.height).foldl
    (fun g r => if r > cursor.row then g.modify_view_line size r (fun l => l.truncate 0) else g) g

/-- Modelled from the spec: erase from the top of the window to the cursor
(inclusive of the cursor cell, `Section::StartTo`). -/
def SGrid.erase_from_start (g : SGrid) (size : Size) (cursor : Pos) : SGrid :=
  let g := (List.range size.height).foldl
    (fun g r => if r < cursor.row then g.modify_view_line size r (fun l => l.truncate 0) else g) g
  g.modify_view_line size cursor.row fun l => l.erase (.startTo cursor.col)

/-- Modelled from the spec (`CSI 2 J` / `CSI 3 J`, corroborated by the repo's
`erase_screen_no_scrollback` and `erase_scrollback` frag tests): clear every
visible line, and additionally drop all stored lines when the scrollback is
included. -/
def SGrid.erase (g : SGrid) (size : Size) (include_scrollback : Bool) : SGrid :=
  if include_scrollback then { g with buf := [] }
  else
    { g with
      buf := (g.buf.take (g.in_view_len size)).map (fun l => l.truncate 0) ++
        g.buf.drop (g.in_view_len size) }

/-- Serialisation of the missing scrollback grid, identical to the in-tree
precursor (src/scrollback.rs lines 66-75): lines top-down, CRLF separated. -/
def SGrid.term_input_into (g : SGrid) : List Nat :=
  List.intercalate crlfBytes (g.buf.reverse.map Line.term_input_into)

/-- `screen::SavedCursor` (src/screen.rs lines 221-231). -/
structure SavedCursor where
  pos : Pos
  attrs : Attrs
deriving DecidableEq, Repr

def SavedCursor.new (pos : Pos) : SavedCursor := ⟨pos, {}⟩

/-- `screen::Grid` (src/screen.rs lines 233-237). -/
inductive Grid where
  | scrollback (g : SGrid)
  | alt (a : AltScreen)
deriving DecidableEq, Repr

/-- `screen::Screen` (src/screen.rs lines 31-44). -/
structure Screen where
  grid : Grid
  size : Size
  cursor : Pos
  saved_cursor : SavedCursor
deriving DecidableEq, Repr

/-- `Screen::scrollback` (src/screen.rs lines 48-59): the stored line count
is forced up to the height. -/
def Screen.scrollbackNew (scrollback_lines : Nat) (size : Size) : Screen :=
  let sl := if scrollback_lines < size.height then size.height else scrollback_lines
  ⟨.scrollback ⟨[], sl⟩, size, ⟨0, 0⟩, SavedCursor.new ⟨0, 0⟩⟩

/-- `Screen::alt` (src/screen.rs lines 62-69). -/
def Screen.altNew (size : Size) : Screen :=
  ⟨.alt (AltScreen.new size), size, ⟨0, 0⟩, SavedCursor.new ⟨0, 0⟩⟩

/-- `Screen::clamp` (src/screen.rs lines 101-103). -/
def Screen.clamp (s : Screen) : Screen :=
  { s with cursor := s.cursor.clampTo s.size }

/-- `Screen::write_at_cursor` (src/screen.rs lines 105-116): dispatch on the
grid variant; on success the returned position becomes the screen cursor; on
an error the cursor is left unchanged (the grid may have been partially
mutated). -/
def Screen.write_at_cursor (s : Screen) (cell : Cell) : WriteRes Screen :=
  match s.grid with
  | .scrollback g =>
    match g.write_at_cursor s.size s.cursor cell with
    | .ok (g, c) => .ok { s with grid := .scrollback g, cursor := c }
    | .err (g, _) => .err { s with grid := .scrollback g }
    | .panic => .panic
  | .alt a =>
    match a.write_at_cursor s.size s.cursor cell with
    | .ok (a, c) => .ok { s with grid := .alt a, cursor := c }
    | .err (a, _) => .err { s with grid := .alt a }
    | .panic => .panic

/-- `Screen::erase_to_end` (src/screen.rs lines 120-125). -/
def Screen.erase_to_end (s : Screen) : Option Screen :=
  match s.grid with
  | .scrollback g => some { s with grid := .scrollback (g.erase_to_end s.size s.cursor) }
  | .alt a => (a.erase_to_end s.cursor).map fun a => { s with grid := .alt a }

/-- `Screen::erase_from_start` (src/screen.rs lines 129-134). -/
def Screen.erase_from_start (s : Screen) : Option Screen :=
  match s.grid with
  | .scrollback g => some { s with grid := .scrollback (g.erase_from_start s.size s.cursor) }
  | .alt a => (a.erase_from_start s.cursor).map fun a => { s with grid := .alt a }

/-- `Screen::erase` (src/screen.rs lines 139-144). -/
def Screen.erase (s : Screen) (include_scrollback : Bool) : Screen :=
  match s.grid with
  | .scrollback g => { s with grid := .scrollback (g.erase s.size include_scrollback) }
  | .alt a => { s with grid := .alt a.erase }

/-- `Screen::erase_to_end_of_line` (src/screen.rs lines 146-157): scrollback
rows without storage are a no-op; alt rows outside the buffer panic. -/
def Screen.erase_to_end_of_line (s : Screen) : Option Screen :=
  match s.grid with
  | .scrollback g =>
    some { s with grid :=
      Grid.scrollback (g.modify_view_line s.size s.cursor.row fun l => l.erase (.toEnd s.cursor.col)) }
  | .alt a =>
    (a.modify_line s.cursor.row fun l => l.erase (.toEnd s.cursor.col)).map
      fun a => { s with grid := .alt a }

/-- `Screen::erase_to_start_of_line` (src/screen.rs lines 159-170). -/
def Screen.erase_to_start_of_line (s : Screen) : Option Screen :=
  match s.grid with
  | .scrollback g =>
    some { s with grid :=
      Grid.scrollback (g.modify_view_line s.size s.cursor.row fun l => l.erase (.startTo s.cursor.col)) }
  | .alt a =>
    (a.modify_line s.cursor.row fun l => l.erase (.startTo s.cursor.col)).map
      fun a => { s with grid := .alt a }

/-- `Screen::erase_line` (src/screen.rs lines 172-181). -/
def Screen.erase_line (s : Screen) : Option Screen :=
  match s.grid with
  | .scrollback g =>
    some { s with grid :=
      Grid.scrollback (g.modify_view_line s.size s.cursor.row fun l => l.erase .whole) }
  | .alt a =>
    (a.modify_line s.cursor.row fun l => l.erase .whole).map
      fun a => { s with grid := .alt a }

/-- Serialisation of the grid part of a screen. -/
def Grid.term_input_into : Grid → List Nat
  | .scrollback g => g.term_input_into
  | .alt a => a.term_input_into

/-- Serialisation of a screen (src/screen.rs lines 204-217): the grid bytes,
then `CSI row+1;col+1 H` restoring the cursor. -/
def Screen.term_input_into (s : Screen) : List Nat :=
  s.grid.term_input_into ++
    (ControlCodes.cursor_position (s.cursor.row + 1) (s.cursor.col + 1)).term_input_into

/-- `ScreenMode` (src/lib.rs lines 196-200). -/
inductive ScreenMode where
  | scrollbackMode
  | altMode
deriving DecidableEq, Repr

/-- The terminal state (src/lib.rs `State`, lines 124-135). -/
structure State where
  scrollback : Screen
  altscreen : Screen
  screen_mode : ScreenMode
  cursor_attrs : Attrs
deriving DecidableEq, Repr

/-- `State::new` (src/lib.rs lines 155-162). -/
def State.new (scrollback_lines : Nat) (size : Size) : State :=
  ⟨Screen.scrollbackNew scrollback_lines size, Screen.altNew size, .scrollbackMode, {}⟩

/-- `State::screen` (src/lib.rs lines 171-176): the active screen. -/
def State.screen (s : State) : Screen :=
  match s.screen_mode with
  | .scrollbackMode => s.scrollback
  | .altMode => s.altscreen

/-- Writing back through `State::screen_mut` (src/lib.rs lines 164-169). -/
def State.set_screen (s : State) (sc : Screen) : State :=
  match s.screen_mode with
  | .scrollbackMode => { s with scrollback := sc }
  | .altMode => { s with altscreen := sc }

/-- Serialisation of the state (src/lib.rs `impl AsTermInput for State`,
lines 179-194): the active screen, then `CSI m` and the transition from
default attributes to the current cursor attributes. -/
def State.term_input_into (s : State) : List Nat :=
  (match s.screen_mode with
   | .scrollbackMode => s.scrollback.term_input_into
   | .altMode => s.altscreen.term_input_into) ++
  ControlCodes.clear_attrs.term_input_into ++
  transitionBytes {} s.cursor_attrs

/-- `Term::contents` (src/lib.rs lines 99-107): clear attributes, home,
clear screen, then the state. -/
def contents (s : State) : List Nat :=
  ControlCodes.clear_attrs.term_input_into ++
  (ControlCodes.cursor_position 1 1).term_input_into ++
  ControlCodes.clear_screen.term_input_into ++
  s.term_input_into

/-- A `vte::Perform` callback delivered by the byte-level parser
(src/lib.rs `impl vte::Perform for State`). The `hook`/`put`/`unhook`
callbacks are stubs in the source and are omitted; `osc_dispatch` is a stub
and is carried as a no-op event. -/
inductive Event where
  | print (c : Char)
  | execute (b : Nat)
  | csiDispatch (params : List (List Nat)) (intermediates : List Nat)
      (ignore : Bool) (action : Char)
  | escDispatch (intermediates : List Nat) (ignore : Bool) (byte : Nat)
  | oscDispatch (params : List (List Nat))
deriving DecidableEq, Repr

/-- `p1_or` (src/lib.rs lines 499-506): the first flattened parameter, with
both a missing parameter and an explicit 0 mapped to the default. -/
def p1_or (params : List (List Nat)) (dflt : Nat) : Nat :=
  let n := params.flatten.headD 0
  if n = 0 then dflt else n

/-- One SGR parameter group applied to the cursor attributes (the `'m'` arm
of `csi_dispatch`, src/lib.rs lines 416-461). The source was written against
an older `Attrs` with boolean `bold`/`underline` fields; setting those
booleans corresponds to `font_weight = Bold` and `underline = Single` of the
current `Attrs` (the variants whose codes are `CSI 1 m` / `CSI 4 m`). An
empty group only warns; unknown codes only warn. -/
def applySgrCode (attrs : Attrs) (g : List Nat) : Attrs :=
  match g with
  | [] => attrs
  | p :: _ =>
    if p = 0 then {}
    else if p = 4 then { attrs with underline := some .single }
    else if p = 21 then { attrs with underline := some .single }
    else if p = 24 then { attrs with underline := none }
    else if p = 1 then { attrs with font_weight := some .bold }
    else if p = 22 then { attrs with font_weight := none }
    else if p = 3 then { attrs with italic := true }
    else if p = 23 then { attrs with italic := false }
    else if p = 7 then { attrs with inverse := true }
    else if p = 27 then { attrs with inverse := false }
    else attrs

/-- The `'h'` arm parameter loop with `?` intermediates (src/lib.rs lines
363-391): each `1049` group clobbers the alt screen with a fresh buffer at
the alt screen's size and switches to alt mode; any other code warns and
returns early. -/
def applyHCodes (s : State) : List (List Nat) → State
  | [] => s
  | g :: rest =>
    if g = [1049] then
      applyHCodes { s with altscreen := Screen.altNew s.altscreen.size,
                           screen_mode := .altMode } rest
    else s

/-- The `'l'` arm parameter loop with `?` intermediates (src/lib.rs lines
392-413): each `1049` group switches back to scrollback mode; any other code
warns and returns early. -/
def applyLCodes (s : State) : List (List Nat) → State
  | [] => s
  | g :: rest =>
    if g = [1049] then applyLCodes { s with screen_mode := .scrollbackMode } rest
    else s

/-- The `'J'` arm parameter loop (src/lib.rs lines 327-338). -/
def applyJCodes (s : State) : List (List Nat) → Option State
  | [] => some s
  | g :: rest =>
    let s? : Option State :=
      if g = [] ∨ g = [0] then (s.screen.erase_to_end).map s.set_screen
      else if g = [1] then (s.screen.erase_from_start).map s.set_screen
      else if g = [2] then some (s.set_screen (s.screen.erase false))
      else if g = [3] then some (s.set_screen (s.screen.erase true))
      else some s
    match s? with
    | none => none
    | some s => applyJCodes s rest

/-- The `'K'` arm parameter loop (src/lib.rs lines 339-349). -/
def applyKCodes (s : State) : List (List Nat) → Option State
  | [] => some s
  | g :: rest =>
    let s? : Option State :=
      if g = [] ∨ g = [0] then (s.screen.erase_to_end_of_line).map s.set_screen
      else if g = [1] then (s.screen.erase_to_start_of_line).map s.set_screen
      else if g = [2] then (s.screen.erase_line).map s.set_screen
      else some s
    match s? with
    | none => none
    | some s => applyKCodes s rest

/-- The dispatcher: one `vte::Perform` callback applied to the state
(src/lib.rs lines 202-497). `none` models a panic inside the callback
(control or zero-width characters in `print`, out-of-bounds alt-screen rows
in the erase operations, and the non-terminating scrollback padding loop). -/
def State.step (s : State) (e : Event) : Option State :=
  match e with
  | .print c =>
    match Cell.new? c s.cursor_attrs with
    | none => none
    | some cell =>
      match s.screen.write_at_cursor cell with
      | .ok sc => some (s.set_screen sc)
      | .err sc => some (s.set_screen sc)
      | .panic => none
  | .execute b =>
    if b = 0x0a then
      some (s.set_screen { s.screen with
        cursor := ⟨s.screen.cursor.row + 1, s.screen.cursor.col⟩ })
    else if b = 0x0d then
      some (s.set_screen { s.screen with cursor := ⟨s.screen.cursor.row, 0⟩ })
    else some s
  | .oscDispatch _ => some s
  | .escDispatch ints ignore b =>
    if ignore then some s
    else if ints = [] ∧ b = 0x37 then
      some (s.set_screen { s.screen with saved_cursor := ⟨s.screen.cursor, s.cursor_attrs⟩ })
    else if ints = [] ∧ b = 0x38 then
      let sc := s.screen
      some { s.set_screen { sc with cursor := sc.saved_cursor.pos } with
        cursor_attrs := sc.saved_cursor.attrs }
    else some s
  | .csiDispatch params ints ignore action =>
    if ignore then some s
    else if action = 'A' then
      let n := p1_or params 1
      some (s.set_screen { s.screen with
        cursor := ⟨s.screen.cursor.row - n, s.screen.cursor.col⟩ })
    else if action = 'B' then
      let n := p1_or params 1
      some (s.set_screen (Screen.clamp { s.screen with
        cursor := ⟨s.screen.cursor.row + n, s.screen.cursor.col⟩ }))
    else if action = 'C' then
      let n := p1_or params 1
      some (s.set_screen (Screen.clamp { s.screen with
        cursor := ⟨s.screen.cursor.row, s.screen.cursor.col + n⟩ }))
    else if action = 'D' then
      let n := p1_or params 1
      some (s.set_screen { s.screen with
        cursor := ⟨s.screen.cursor.row, s.screen.cursor.col - n⟩ })
    else if action = 'E' then
      let n := p1_or params 1
      some (s.set_screen (Screen.clamp { s.screen with
        cursor := ⟨s.screen.cursor.row + n, 0⟩ }))
    else if action = 'F' then
      let n := p1_or params 1
      some (s.set_screen { s.screen with cursor := ⟨s.screen.cursor.row - n, 0⟩ })
    else if action = 'G' then
      let n := p1_or params 1
      some (s.set_screen (Screen.clamp { s.screen with
        cursor := ⟨s.screen.cursor.row, n - 1⟩ }))
    else if action = 'H' then
      let row := (params.headD [1]).headD 1
      let col := (params.getD 1 [1]).headD 1
      some (s.set_screen (Screen.clamp { s.screen with cursor := ⟨row - 1, col - 1⟩ }))
    else if action = 'J' then applyJCodes s params
    else if action = 'K' then applyKCodes s params
    else if action = 's' then
      some (s.set_screen { s.screen with
        saved_cursor := { s.screen.saved_cursor with pos := s.screen.cursor } })
    else if action = 'u' then
      some (s.set_screen { s.screen with cursor := s.screen.saved_cursor.pos })
    else if action = 'h' then
      if ints = [0x3f] then some (applyHCodes s params) else some s
    else if action = 'l' then
      if ints = [0x3f] then some (applyLCodes s params) else some s
    else if action = 'm' then
      some { s with cursor_attrs := params.foldl applySgrCode s.cursor_attrs }
    else some s

/-- `Parser::advance` over a sequence of callbacks: fold the dispatcher. -/
def processEvents (s : State) (es : List Event) : Option State :=
  es.foldlM State.step s

mutual

/-- Modelled from the spec: the byte-level VT parser (the off-the-shelf
`vte` crate, out of scope per spec sections 1-2), restricted to the dialect
this emulator emits and accepts (spec section 6): UTF-8 text, C0 controls
delivered to `execute`, `ESC [ params intermediates action` CSI sequences
(`?` collected as an intermediate, `;`/`:` parameter separators, a digitless
sequence delivering the single parameter group `[0]` as vte does), bare
`ESC intermediates byte` sequences, and OSC terminated by BEL. The mutual
recursion consumes at least one byte per step. -/
def parseGround : List Nat → List Event
  | [] => []
  | b :: rest =>
    if b = 0x1b then parseEsc [] rest
    else if b < 0x20 ∨ b = 0x7f then .execute b :: parseGround rest
    else if b < 0x80 then .print (Char.ofNat b) :: parseGround rest
    else if 0xc0 ≤ b ∧ b < 0xe0 then
      match rest with
      | b1 :: rest2 => .print (Char.ofNat ((b - 0xc0) * 64 + (b1 - 0x80))) :: parseGround rest2
      | [] => []
    else if 0xe0 ≤ b ∧ b < 0xf0 then
      match rest with
      | b1 :: b2 :: rest2 =>
        .print (Char.ofNat ((b - 0xe0) * 4096 + (b1 - 0x80) * 64 + (b2 - 0x80))) ::
          parseGround rest2
      | _ => []
    else if 0xf0 ≤ b ∧ b < 0xf8 then
      match rest with
      | b1 :: b2 :: b3 :: rest2 =>
        .print (Char.ofNat
          ((b - 0xf0) * 262144 + (b1 - 0x80) * 4096 + (b2 - 0x80) * 64 + (b3 - 0x80))) ::
          parseGround rest2
      | _ => []
    else parseGround rest

def parseEsc (ints : List Nat) : List Nat → List Event
  | [] => []
  | b :: rest =>
    if b = 0x5b then parseCsi [] [] [] 0 rest
    else if b = 0x5d then parseOsc rest
    else if 0x20 ≤ b ∧ b ≤ 0x2f then parseEsc (ints ++ [b]) rest
    else if 0x30 ≤ b ∧ b ≤ 0x7e then .escDispatch ints false b :: parseGround rest
    else parseGround rest

def parseCsi (ints : List Nat) (groups : List (List Nat)) (cur : List Nat) (curNum : Nat) :
    List Nat → List Event
  | [] => []
  | b :: rest =>
    if 0x30 ≤ b ∧ b ≤ 0x39 then parseCsi ints groups cur (curNum * 10 + (b - 0x30)) rest
    else if b = 0x3b then parseCsi ints (groups ++ [cur ++ [curNum]]) [] 0 rest
    else if b = 0x3a then parseCsi ints groups (cur ++ [curNum]) 0 rest
    else if (0x3c ≤ b ∧ b ≤ 0x3f) ∨ (0x20 ≤ b ∧ b ≤ 0x2f) then
      parseCsi (ints ++ [b]) groups cur curNum rest
    else if 0x40 ≤ b ∧ b ≤ 0x7e then
      .csiDispatch (groups ++ [cur ++ [curNum]]) ints false (Char.ofNat b) :: parseGround rest
    else parseGround rest

def parseOsc : List Nat → List Event
  | [] => []
  | b :: rest =>
    if b = 0x07 then .oscDispatch [] :: parseGround rest
    else parseOsc rest

end

/-- `Term::process` (src/lib.rs lines 91-93) for one chunk of input: parse
the bytes and fold the callbacks into the state. -/
def processBytes (s : State) (bs : List Nat) : Option State :=
  processEvents s (parseGround bs)

/-! ## Claim theorems -/

/-- A printed width-1 character cell with default attributes, used by the
concrete counterexamples. -/
def chCell (c : Char) : Cell := ⟨[c], 1, false, false, {}⟩

/-- The state left behind by one `print`-style scrollback write (warnings on
`Err` are dropped, as in `Scrollback::print`). -/
def sbPrint (sb : Scrollback) (c : Char) : Option Scrollback :=
  match sb.write_at_cursor (chCell c) with
  | .ok s => some s
  | .err s => some s
  | .panic => none

/-- Replaying the five width-1 cell writes a b c d e on a width-4 scrollback
(height 10, 10 stored lines). -/
def c2_replay : Option Scrollback :=
  (['a', 'b', 'c', 'd', 'e']).foldlM sbPrint (Scrollback.new 10 ⟨4, 10⟩)

set_option maxHeartbeats 1000000 in
/-- C1: the claim says that for every reachable terminal state S, feeding
`S.contents()` into a fresh terminal of the same size and scrollback limit
yields S' with `S'.contents()` byte-identical to `S.contents()`. This fails
on the code: processing the single byte "a" on a 1×1 terminal leaves the
cursor in the pending-wrap position `col = width = 1`, `contents` restores
it as `CSI 1;2 H`, and the fresh terminal's CUP handler clamps that column
back into the window, so the second dump ends with the parameterless home
code `CSI H` instead and the byte strings differ. -/
theorem c1_roundtrip_fails_on_pending_wrap_cursor :
    (processBytes (State.new 1 ⟨1, 1⟩) [0x61]).map contents =
      some [27, 91, 109, 27, 91, 72, 27, 91, 74, 97, 27, 91, 49, 59, 50, 72, 27, 91, 109] ∧
    ((processBytes (State.new 1 ⟨1, 1⟩) [0x61]).bind fun s =>
        (processBytes (State.new 1 ⟨1, 1⟩) (contents s)).map contents) =
      some [27, 91, 109, 27, 91, 72, 27, 91, 74, 97, 27, 91, 72, 27, 91, 109] ∧
    [27, 91, 109, 27, 91, 72, 27, 91, 74, 97, 27, 91, 49, 59, 50, 72, 27, 91, 109] ≠
      [27, 91, 109, 27, 91, 72, 27, 91, 74, 97, 27, 91, 72, 27, 91, 109] := by
  refine ⟨rfl, rfl, ?_⟩
  decide

/-- C2: the claim says reflowing a replayed scrollback from width W₀ to W₁
and back equals replaying at W₀. This fails on the code even for width-1
cells: replaying a b c d e at width 4 gives the buffer
`[abcd (wrapped), e]`; reflowing to width 3 leaves a short carry line whose
wrap flag was set from `!logical_line.is_empty()` and never cleared, so the
bottom line `de` comes out wrapped; reflowing back to width 4 then finds no
unwrapped logical-line terminator and drops the entire logical line,
leaving an empty buffer instead of the replayed one. -/
theorem c2_reflow_roundtrip_fails :
    c2_replay.map Scrollback.buf =
      some [⟨[chCell 'e'], false⟩,
            ⟨[chCell 'a', chCell 'b', chCell 'c', chCell 'd'], true⟩] ∧
    c2_replay.map (fun sb => (sb.resize ⟨3, 10⟩).buf) =
      some [⟨[chCell 'd', chCell 'e'], true⟩,
            ⟨[chCell 'a', chCell 'b', chCell 'c'], true⟩] ∧
    c2_replay.map (fun sb => ((sb.resize ⟨3, 10⟩).resize ⟨4, 10⟩).buf) = some [] := by
  exact ⟨rfl, rfl, rfl⟩

/-- C4: the claim says zero-width (combining) characters are appended to the
preceding cell's cluster without creating a cell, with `Cell::add_char`
accepting every zero-width character and asserting on non-zero-width ones.
The code does the opposite: `State::print` builds a cell from every
character via `Cell::new`, which panics on zero-width characters (so U+0301
COMBINING ACUTE ACCENT in the input aborts instead of extending the
previous cell), and `Cell::add_char`'s assertion
`assert!(width(c).unwrap_or(0) > 0)` fires exactly on zero-width and
control characters while accepting width-1 characters — the inverse of its
own doc comment and of the assertion's message text. -/
theorem c4_zero_width_chars_panic :
    Cell.new? (Char.ofNat 0x301) {} = none ∧
    (State.new 10 ⟨10, 10⟩).step (.print (Char.ofNat 0x301)) = none ∧
    Cell.add_char? (chCell 'a') (Char.ofNat 0x301) = none ∧
    Cell.add_char? (chCell 'a') 'b' = some ⟨['a', 'b'], 1, false, false, {}⟩ := by
  exact ⟨rfl, rfl, rfl, rfl⟩

/-- Auxiliary for C6: padding a list to length `m + 1` with a default and
setting the last position is appending. -/
theorem set_replicate_last (m : Nat) (e x : Cell) :
    (List.replicate (m + 1) e).set m x = List.replicate m e ++ [x] := by
  induction m with
  | zero => rfl
  | succ k ih =>
    simpa [List.replicate_succ, List.set] using ih

/-- C6: `set_cell(width, col, cell)` errors exactly when `col ≥ width` and
otherwise extends the stored cells with empty cells so that position `col`
exists and writes the cell there; `get_cell(width, col)` returns the stored
cell, the shared empty cell past the stored prefix, and nothing at or past
the width. -/
theorem c6_set_get_cell (l : Line) (w col : Nat) (cell : Cell) :
    (l.set_cell w col cell = .error () ↔ w ≤ col) ∧
    (col < w →
      l.set_cell w col cell =
        .ok ⟨(l.cells ++ List.replicate (col + 1 - l.cells.length) Cell.emptyCell).set col cell,
          l.is_wrapped⟩) ∧
    l.get_cell w col = (if col < w then some ((l.cells[col]?).getD Cell.emptyCell) else none) := by
  refine ⟨?_, ?_, ?_⟩
  · unfold Line.set_cell
    constructor
    · intro h
      by_contra hc
      rw [if_neg (by omega)] at h
      split at h <;> exact Except.noConfusion h
    · intro h
      rw [if_pos (by omega)]
  · intro hlt
    unfold Line.set_cell
    rw [if_neg (by omega)]
    by_cases hge : col ≥ l.cells.length
    · rw [if_pos hge]
      have hcl : col + 1 - l.cells.length = (col - l.cells.length) + 1 := by omega
      rw [hcl]
      rw [List.set_append_right _ _ (by omega), set_replicate_last]
      simp [List.append_assoc]
    · rw [if_neg hge]
      have hzero : col + 1 - l.cells.length = 0 := by omega
      rw [hzero]
      simp only [List.replicate_zero, List.append_nil]
  · unfold Line.get_cell
    by_cases h1 : col ≥ w
    · rw [if_pos h1, if_neg (by omega)]
    · rw [if_neg h1, if_pos (show col < w by omega)]
      by_cases h2 : col ≥ l.cells.length
      · rw [if_pos h2, List.getElem?_eq_none (by omega)]
        rfl
      · rw [if_neg h2]
        have hc : col < l.cells.length := by omega
        rw [List.getD_eq_getElem?_getD, List.getElem?_eq_getElem hc]

/-- C6 witness: the theorem applied on a concrete line, width, column and
cell. -/
theorem c6_set_get_cell_witness :
    (Line.set_cell ⟨[chCell 'a'], false⟩ 3 2 (chCell 'b') = .error () ↔ (3 : Nat) ≤ 2) ∧
    ((2 : Nat) < 3 →
      Line.set_cell ⟨[chCell 'a'], false⟩ 3 2 (chCell 'b') =
        .ok ⟨([chCell 'a'] ++
            List.replicate (2 + 1 - [chCell 'a'].length) Cell.emptyCell).set 2 (chCell 'b'),
          false⟩) ∧
    Line.get_cell ⟨[chCell 'a'], false⟩ 3 2 =
      (if 2 < 3 then some (([chCell 'a'][2]?).getD Cell.emptyCell) else none) :=
  c6_set_get_cell ⟨[chCell 'a'], false⟩ 3 2 (chCell 'b')

/-- The behaviour claim C7 describes, taken literally: remove up to `n`
cells at `col`, extend the line to length `width - n` with plain empty
cells, then extend to length `width` with empty cells carrying the given
attributes. -/
def delete_character_claim (l : Line) (width col : Nat) (attrs : Attrs) (n : Nat) : Line :=
  let cells := l.cells.take col ++ l.cells.drop (col + n)
  let cells := cells ++ List.replicate (width - n - cells.length) Cell.emptyCell
  let cells := cells ++ List.replicate (width - cells.length) (Cell.empty_with_attrs attrs)
  ⟨cells, l.is_wrapped⟩

/-- C7 counterexample: on the two-cell line `ab` with width 5, `col = 1` and
`n = 3` only one cell can be removed, and the code extends with plain empty
cells to `width - 1 = 4` (not `width - n = 2`), so only one attrs-carrying
backfill cell is appended instead of the three the claim calls for. -/
theorem c7_delete_character_cex :
    Line.delete_character ⟨[chCell 'a', chCell 'b'], false⟩ 5 1 { italic := true } 3 =
      some ⟨[chCell 'a', Cell.emptyCell, Cell.emptyCell, Cell.emptyCell,
             Cell.empty_with_attrs { italic := true }], false⟩ ∧
    delete_character_claim ⟨[chCell 'a', chCell 'b'], false⟩ 5 1 { italic := true } 3 =
      ⟨[chCell 'a', Cell.emptyCell, Cell.empty_with_attrs { italic := true },
        Cell.empty_with_attrs { italic := true }, Cell.empty_with_attrs { italic := true }],
       false⟩ ∧
    Line.delete_character ⟨[chCell 'a', chCell 'b'], false⟩ 5 1 { italic := true } 3 ≠
      some (delete_character_claim ⟨[chCell 'a', chCell 'b'], false⟩ 5 1 { italic := true } 3) := by
  refine ⟨rfl, rfl, ?_⟩
  decide

/-- C7 amended: for `col` within the stored cells and a line respecting the
width invariant, `delete_character(width, col, attrs, n)` removes
`d = min(n, len - col)` cells at `col` — the number of cells actually
present there, not necessarily `n` — then extends to length `width - d`
with plain empty cells and to length `width` with empty cells carrying the
given attributes, so exactly the `d` vacated positions at the right edge
are backfilled with the current attributes. -/
theorem c7_delete_character_amended (l : Line) (w col n : Nat) (attrs : Attrs)
    (hcol : col ≤ l.cells.length) (hw : l.cells.length ≤ w) :
    l.delete_character w col attrs n =
      some ⟨l.cells.take col ++ l.cells.drop (col + min n (l.cells.length - col)) ++
        List.replicate (w - l.cells.length) Cell.emptyCell ++
        List.replicate (min n (l.cells.length - col)) (Cell.empty_with_attrs attrs),
        l.is_wrapped⟩ := by
  unfold Line.delete_character
  rw [if_pos hcol]
  dsimp only
  have h1 : min l.cells.length (col + n) = col + min n (l.cells.length - col) := by omega
  rw [h1]
  simp only [Option.some.injEq, Line.mk.injEq, and_true, List.length_append, List.length_take,
    List.length_drop, List.length_replicate, List.append_assoc]
  congr 1
  congr 1
  congr 1
  · congr 1
    omega
  · congr 1
    omega

/-- C7 amended witness: the amended statement applied at the concrete inputs
of the counterexample. -/
theorem c7_delete_character_amended_witness :
    Line.delete_character ⟨[chCell 'a', chCell 'b'], false⟩ 5 1 { italic := true } 3 =
      some ⟨[chCell 'a', chCell 'b'].take 1 ++ [chCell 'a', chCell 'b'].drop (1 + min 3 1) ++
        List.replicate 3 Cell.emptyCell ++
        List.replicate (min 3 1) (Cell.empty_with_attrs { italic := true }), false⟩ := by
  have h := c7_delete_character_amended ⟨[chCell 'a', chCell 'b'], false⟩ 5 1 3
    { italic := true } (by decide) (by decide)
  simpa using h

/-- C3: for every terminal state, the dump begins with exactly the three
codes clear-attrs (`CSI m`), home and clear-screen (`CSI J`), then the
serialised lines of the active screen's grid, and ends with the cursor
restore code for the active screen's current cursor followed by `CSI m` and
the minimal transition from default attributes to the current cursor
attributes, in exactly that order. The home and cursor-restore codes are
emitted in the canonical form with default parameters omitted (spec section
6), i.e. `CSI H` for row 1 column 1 and `CSI row+1;col+1 H` otherwise. The
grid part is exactly the CRLF-separated serialised lines: for a scrollback
grid nothing else is emitted, and for an alt grid the scroll-region restore
code follows the lines but is empty for the `TrackSize` region, the only
region the dispatcher can ever leave in place. -/
theorem c3_contents_emission_order (s : State) :
    contents s =
      ControlCodes.clear_attrs.term_input_into ++
      (ControlCodes.cursor_position 1 1).term_input_into ++
      ControlCodes.clear_screen.term_input_into ++
      s.screen.grid.term_input_into ++
      (ControlCodes.cursor_position (s.screen.cursor.row + 1)
        (s.screen.cursor.col + 1)).term_input_into ++
      ControlCodes.clear_attrs.term_input_into ++
      transitionBytes {} s.cursor_attrs ∧
    (∀ g : SGrid, Grid.term_input_into (.scrollback g) =
      List.intercalate crlfBytes (g.buf.reverse.map Line.term_input_into)) ∧
    (∀ a : AltScreen, Grid.term_input_into (.alt a) =
      List.intercalate crlfBytes (a.buf.map Line.term_input_into) ++
        a.scroll_region.term_input_into) ∧
    ScrollRegion.term_input_into .trackSize = [] := by
  refine ⟨?_, fun g => rfl, fun a => rfl, rfl⟩
  rcases s with ⟨sb, alt, mode, attrs⟩
  cases mode <;>
    simp [contents, State.term_input_into, Screen.term_input_into, State.screen,
      Grid.term_input_into, List.append_assoc]

/-- The set code of an underline variant. -/
def ulSetCode : UnderlineStyle → ControlCode
  | .single => ControlCodes.underline
  | .double => ControlCodes.double_underline

/-- The set code of a font-weight variant. -/
def fwSetCode : FontWeight → ControlCode
  | .bold => ControlCodes.bold
  | .faint => ControlCodes.faint

/-- The set code of a blink variant. -/
def blinkSetCode : BlinkStyle → ControlCode
  | .slow => ControlCodes.slow_blink
  | .rapid => ControlCodes.rapid_blink

/-- The set code of a framed variant. -/
def frSetCode : FrameStyle → ControlCode
  | .frame => ControlCodes.framed
  | .circle => ControlCodes.encircled

/-- The amended claim C5's rule for a tri-state dimension: nothing when
absent on both sides, only the reset code on a transition to none, only the
set code on a transition from none, and the reset code followed by the set
code whenever both sides are present — even when the variant is
unchanged. -/
def amendedTri {α : Type} (reset : ControlCode) (setOf : α → ControlCode) :
    Option α → Option α → List ControlCode
  | none, none => []
  | some _, none => [reset]
  | none, some v => [setOf v]
  | some _, some v => [reset, setOf v]

/-- The original claim C5's rule for a tri-state dimension: codes only when
the dimension differs; a different variant emits reset then set; a
transition to none emits only the reset. -/
def claimTri {α : Type} [DecidableEq α] (reset : ControlCode) (setOf : α → ControlCode) :
    Option α → Option α → List ControlCode
  | none, none => []
  | some _, none => [reset]
  | none, some v => [setOf v]
  | some x, some v => if x = v then [] else [reset, setOf v]

/-- A boolean dimension's delta: nothing when equal, the set code when
turning on, the reset code when turning off. -/
def deltaBool (setC resetC : ControlCode) (a b : Bool) : List ControlCode :=
  if a = b then [] else if b then [setC] else [resetC]

/-- A color dimension's delta: the new color's code exactly when it
differs. -/
def deltaColor (codeOf : Color → ControlCode) (a b : Color) : List ControlCode :=
  if a = b then [] else [codeOf b]

/-- The amended claim C5's pre-fusion code list, dimension by dimension in
the fixed order fg, bg, italic, underline, inverse, weight, blink, conceal,
strikethrough, framed, overline. -/
def amendedDimCodes (a b : Attrs) : List ControlCode :=
  deltaColor Color.fgcode a.fgcolor b.fgcolor ++
  deltaColor Color.bgcode a.bgcolor b.bgcolor ++
  deltaBool ControlCodes.italic ControlCodes.undo_italic a.italic b.italic ++
  amendedTri ControlCodes.undo_underline ulSetCode a.underline b.underline ++
  deltaBool ControlCodes.inverse ControlCodes.undo_inverse a.inverse b.inverse ++
  amendedTri ControlCodes.reset_font_weight fwSetCode a.font_weight b.font_weight ++
  amendedTri ControlCodes.undo_blink blinkSetCode a.blink b.blink ++
  deltaBool ControlCodes.conceal ControlCodes.undo_conceal a.conceal b.conceal ++
  deltaBool ControlCodes.strikethrough ControlCodes.undo_strikethrough
    a.strikethrough b.strikethrough ++
  amendedTri ControlCodes.undo_framed frSetCode a.framed b.framed ++
  deltaBool ControlCodes.overline ControlCodes.undo_overline a.overline b.overline

/-- The original claim C5's pre-fusion code list (codes only for differing
dimensions). -/
def claimDimCodes (a b : Attrs) : List ControlCode :=
  deltaColor Color.fgcode a.fgcolor b.fgcolor ++
  deltaColor Color.bgcode a.bgcolor b.bgcolor ++
  deltaBool ControlCodes.italic ControlCodes.undo_italic a.italic b.italic ++
  claimTri ControlCodes.undo_underline ulSetCode a.underline b.underline ++
  deltaBool ControlCodes.inverse ControlCodes.undo_inverse a.inverse b.inverse ++
  claimTri ControlCodes.reset_font_weight fwSetCode a.font_weight b.font_weight ++
  claimTri ControlCodes.undo_blink blinkSetCode a.blink b.blink ++
  deltaBool ControlCodes.conceal ControlCodes.undo_conceal a.conceal b.conceal ++
  deltaBool ControlCodes.strikethrough ControlCodes.undo_strikethrough
    a.strikethrough b.strikethrough ++
  claimTri ControlCodes.undo_framed frSetCode a.framed b.framed ++
  deltaBool ControlCodes.overline ControlCodes.undo_overline a.overline b.overline

/-- Merge a CSI code into the front of an already-fused code list: when the
head is a CSI with the same intermediates and action, concatenate the
parameter groups, otherwise cons. -/
def specFuseMerge (p : List (List Nat)) (i : List Nat) (a : Char) :
    List ControlCode → List ControlCode
  | .csi q j b :: rest =>
    if j = i ∧ b = a then .csi (p ++ q) i a :: rest else .csi p i a :: .csi q j b :: rest
  | out => .csi p i a :: out

/-- The fusion rule as the claim words it: every run of adjacent CSI codes
sharing the same (intermediates, action) collapses into a single CSI whose
parameter groups are the concatenation of the run's, and non-CSI codes
break fusion. -/
def specFuse : List ControlCode → List ControlCode
  | [] => []
  | .csi p i a :: rest => specFuseMerge p i a (specFuse rest)
  | .esc i b :: rest => .esc i b :: specFuse rest

theorem segFg_eq (a b : Color) : segFg a b = deltaColor Color.fgcode a b := by
  unfold segFg deltaColor
  by_cases h : a = b <;> simp [h]

theorem segBg_eq (a b : Color) : segBg a b = deltaColor Color.bgcode a b := by
  unfold segBg deltaColor
  by_cases h : a = b <;> simp [h]

theorem segItalic_eq (a b : Bool) :
    segItalic a b = deltaBool ControlCodes.italic ControlCodes.undo_italic a b := by
  cases a <;> cases b <;> rfl

theorem segInverse_eq (a b : Bool) :
    segInverse a b = deltaBool ControlCodes.inverse ControlCodes.undo_inverse a b := by
  cases a <;> cases b <;> rfl

theorem segConceal_eq (a b : Bool) :
    segConceal a b = deltaBool ControlCodes.conceal ControlCodes.undo_conceal a b := by
  cases a <;> cases b <;> rfl

theorem segStrikethrough_eq (a b : Bool) :
    segStrikethrough a b =
      deltaBool ControlCodes.strikethrough ControlCodes.undo_strikethrough a b := by
  cases a <;> cases b <;> rfl

theorem segOverline_eq (a b : Bool) :
    segOverline a b = deltaBool ControlCodes.overline ControlCodes.undo_overline a b := by
  cases a <;> cases b <;> rfl

theorem segUnderline_eq (a b : Option UnderlineStyle) :
    segUnderline a b = amendedTri ControlCodes.undo_underline ulSetCode a b := by
  rcases a with _ | x <;> rcases b with _ | s <;> first | rfl | (cases s <;> rfl)

theorem segFontWeight_eq (a b : Option FontWeight) :
    segFontWeight a b = amendedTri ControlCodes.reset_font_weight fwSetCode a b := by
  rcases a with _ | x <;> rcases b with _ | s <;> first | rfl | (cases s <;> rfl)

theorem segBlink_eq (a b : Option BlinkStyle) :
    segBlink a b = amendedTri ControlCodes.undo_blink blinkSetCode a b := by
  rcases a with _ | x <;> rcases b with _ | s <;> first | rfl | (cases s <;> rfl)

theorem segFramed_eq (a b : Option FrameStyle) :
    segFramed a b = amendedTri ControlCodes.undo_framed frSetCode a b := by
  rcases a with _ | x <;> rcases b with _ | s <;> first | rfl | (cases s <;> rfl)

theorem specFuseMerge_shape (q : List (List Nat)) (j : List Nat) (b : Char)
    (S : List ControlCode) :
    ∃ r tail, specFuseMerge q j b S = .csi r j b :: tail := by
  cases S with
  | nil => exact ⟨q, [], rfl⟩
  | cons c rest =>
    cases c with
    | csi r j2 b2 =>
      by_cases h : j2 = j ∧ b2 = b
      · refine ⟨q ++ r, rest, ?_⟩
        simp [specFuseMerge, h]
      · refine ⟨q, .csi r j2 b2 :: rest, ?_⟩
        simp [specFuseMerge, h]
    | esc j2 b2 => exact ⟨q, .esc j2 b2 :: rest, rfl⟩

theorem specFuseMerge_merge (p q : List (List Nat)) (i : List Nat) (a : Char)
    (out : List ControlCode) :
    specFuseMerge p i a (specFuseMerge q i a out) = specFuseMerge (p ++ q) i a out := by
  cases out with
  | nil => simp [specFuseMerge]
  | cons c rest =>
    cases c with
    | csi r j b =>
      by_cases h : j = i ∧ b = a
      · simp [specFuseMerge, h, List.append_assoc]
      · simp [specFuseMerge, h]
    | esc j b => simp [specFuseMerge]

theorem specFuseMerge_cons_of_ne (p : List (List Nat)) (i : List Nat) (a : Char)
    (q : List (List Nat)) (j : List Nat) (b : Char) (S : List ControlCode)
    (h : ¬ (j = i ∧ b = a)) :
    specFuseMerge p i a (specFuseMerge q j b S) = .csi p i a :: specFuseMerge q j b S := by
  obtain ⟨r, tail, hshape⟩ := specFuseMerge_shape q j b S
  rw [hshape]
  simp [specFuseMerge, h]

theorem fuse_go_spec :
    ∀ (fuel : Nat) (codes : List ControlCode), codes.length ≤ fuel →
      ControlCode.fuse_csi_go [] [] none codes = specFuse codes ∧
      ∀ p i a, ControlCode.fuse_csi_go p i (some a) codes =
        specFuseMerge p i a (specFuse codes) := by
  intro fuel
  induction fuel with
  | zero =>
    intro codes hlen
    have hnil : codes = [] := List.eq_nil_of_length_eq_zero (Nat.le_zero.mp hlen)
    subst hnil
    exact ⟨rfl, fun p i a => rfl⟩
  | succ k ih =>
    intro codes hlen
    cases codes with
    | nil => exact ⟨rfl, fun p i a => rfl⟩
    | cons c rest =>
      have hr : rest.length ≤ k := by
        simp only [List.length_cons] at hlen
        omega
      constructor
      · cases c with
        | csi p i a =>
          have step : ControlCode.fuse_csi_go [] [] none (.csi p i a :: rest) =
              ControlCode.fuse_csi_go ([] ++ p) i (some a) rest := rfl
          rw [step, List.nil_append, (ih rest hr).2 p i a]
          rfl
        | esc i b =>
          have step : ControlCode.fuse_csi_go [] [] none (.esc i b :: rest) =
              .esc i b :: ControlCode.fuse_csi_go [] [] none rest := rfl
          rw [step, (ih rest hr).1]
          rfl
      · intro p i a
        cases c with
        | csi q j b =>
          by_cases h : a = b ∧ i = j
          · have step : ControlCode.fuse_csi_go p i (some a) (.csi q j b :: rest) =
                ControlCode.fuse_csi_go (p ++ q) i (some a) rest := by
              simp [ControlCode.fuse_csi_go, h]
            rw [step, (ih rest hr).2 (p ++ q) i a]
            obtain ⟨hab, hij⟩ := h
            subst hab
            subst hij
            rw [show specFuse (ControlCode.csi q i a :: rest) =
              specFuseMerge q i a (specFuse rest) from rfl]
            exact (specFuseMerge_merge p q i a (specFuse rest)).symm
          · have step : ControlCode.fuse_csi_go p i (some a) (.csi q j b :: rest) =
                .csi p i a :: ControlCode.fuse_csi_go q j (some b) rest := by
              simp [ControlCode.fuse_csi_go, h]
            rw [step, (ih rest hr).2 q j b]
            have hno : ¬ (j = i ∧ b = a) := fun hc => h ⟨hc.2.symm, hc.1.symm⟩
            rw [show specFuse (ControlCode.csi q j b :: rest) =
              specFuseMerge q j b (specFuse rest) from rfl]
            exact (specFuseMerge_cons_of_ne p i a q j b (specFuse rest) hno).symm
        | esc j b =>
          have step : ControlCode.fuse_csi_go p i (some a) (.esc j b :: rest) =
              .csi p i a :: .esc j b :: ControlCode.fuse_csi_go [] [] none rest := rfl
          rw [step, (ih rest hr).1]
          rfl

/-- C5 counterexample: for previous attributes with a single underline and
next attributes with the same underline plus italic, the underline
dimension does not differ, yet `transition_to` emits `CSI 3;24;4 m` — the
italic set code fused with an underline reset and re-set — where the claim
calls for only the differing italic dimension, `CSI 3 m`. The source's
`(Some(_), Some(style))` match arms never compare the two variants. -/
theorem c5_transition_not_minimal_cex :
    Attrs.transition_to { underline := some .single }
        { underline := some .single, italic := true } =
      [.csi [[3], [24], [4]] [] 'm'] ∧
    ControlCode.fuse_csi (claimDimCodes { underline := some .single }
        { underline := some .single, italic := true }) =
      [.csi [[3]] [] 'm'] ∧
    Attrs.transition_to { underline := some .single }
        { underline := some .single, italic := true } ≠
      ControlCode.fuse_csi (claimDimCodes { underline := some .single }
        { underline := some .single, italic := true }) := by
  refine ⟨rfl, rfl, ?_⟩
  decide

/-- C5 amended: `transition_to` emits, in the fixed dimension order fg, bg,
italic, underline, inverse, weight, blink, conceal, strikethrough, framed,
overline, codes only for the dimensions in which the two attribute sets
differ — except that a tri-state dimension (weight, underline, blink,
framed) present on both sides re-emits its reset code followed by the set
code even when the variant is unchanged; a tri-state transition to none
emits only the reset code. The emitted sequence is the CSI fusion of those
per-dimension codes, and the fusion implemented by `fuse_csi` merges every
run of adjacent CSI codes sharing (intermediates, action) into a single CSI
whose parameter groups are the concatenation of the run's, with non-CSI
codes breaking fusion. -/
theorem c5_transition_amended :
    (∀ a b : Attrs, a.transition_to b = ControlCode.fuse_csi (amendedDimCodes a b)) ∧
    (∀ codes : List ControlCode, ControlCode.fuse_csi codes = specFuse codes) := by
  constructor
  · intro a b
    unfold Attrs.transition_to amendedDimCodes
    rw [segFg_eq, segBg_eq, segItalic_eq, segUnderline_eq, segInverse_eq, segFontWeight_eq,
      segBlink_eq, segConceal_eq, segStrikethrough_eq, segFramed_eq, segOverline_eq]
  · intro codes
    exact (fuse_go_spec codes.length codes le_rfl).1

/-- An event carrying a `?`-intermediate `h`/`l` CSI whose parameters
mention mode 1049 (the alt-screen toggle). Claim C8 quantifies over inputs
with no such code. -/
def Event.mentions1049 : Event → Bool
  | .csiDispatch params ints _ action =>
    decide ((action = 'h' ∨ action = 'l') ∧ ints = [0x3f] ∧ [1049] ∈ params)
  | _ => false

theorem set_screen_alt (s : State) (hmode : s.screen_mode = .altMode) (sc : Screen) :
    (s.set_screen sc).scrollback = s.scrollback ∧
    (s.set_screen sc).screen_mode = .altMode := by
  simp [State.set_screen, hmode]

theorem applyHCodes_no1049 (s : State) (params : List (List Nat))
    (h : [1049] ∉ params) : applyHCodes s params = s := by
  cases params with
  | nil => rfl
  | cons g rest =>
    unfold applyHCodes
    rw [if_neg]
    intro hg
    exact h (by simp [hg])

theorem applyLCodes_no1049 (s : State) (params : List (List Nat))
    (h : [1049] ∉ params) : applyLCodes s params = s := by
  cases params with
  | nil => rfl
  | cons g rest =>
    unfold applyLCodes
    rw [if_neg]
    intro hg
    exact h (by simp [hg])

theorem applyJCodes_alt (params : List (List Nat)) :
    ∀ (s s' : State), s.screen_mode = .altMode → applyJCodes s params = some s' →
      s'.scrollback = s.scrollback ∧ s'.screen_mode = .altMode := by
  induction params with
  | nil =>
    intro s s' h hrun
    cases hrun
    exact ⟨rfl, h⟩
  | cons g rest ih =>
    intro s s' h hrun
    unfold applyJCodes at hrun
    set s? := if g = [] ∨ g = [0] then (s.screen.erase_to_end).map s.set_screen
      else if g = [1] then (s.screen.erase_from_start).map s.set_screen
      else if g = [2] then some (s.set_screen (s.screen.erase false))
      else if g = [3] then some (s.set_screen (s.screen.erase true))
      else some s with hdef
    have hmid : ∀ s1 : State, s? = some s1 →
        s1.scrollback = s.scrollback ∧ s1.screen_mode = .altMode := by
      intro s1 hs1
      rw [hdef] at hs1
      split at hs1
      · obtain ⟨sc, _, rfl⟩ := Option.map_eq_some'.mp hs1
        exact set_screen_alt s h sc
      · split at hs1
        · obtain ⟨sc, _, rfl⟩ := Option.map_eq_some'.mp hs1
          exact set_screen_alt s h sc
        · split at hs1
          · cases hs1
            exact set_screen_alt s h _
          · split at hs1
            · cases hs1
              exact set_screen_alt s h _
            · cases hs1
              exact ⟨rfl, h⟩
    cases hs : s? with
    | none => rw [hs] at hrun; exact Option.noConfusion hrun
    | some s1 =>
      rw [hs] at hrun
      have h1 := hmid s1 hs
      have h2 := ih s1 s' h1.2 hrun
      exact ⟨h2.1.trans h1.1, h2.2⟩

theorem applyKCodes_alt (params : List (List Nat)) :
    ∀ (s s' : State), s.screen_mode = .altMode → applyKCodes s params = some s' →
      s'.scrollback = s.scrollback ∧ s'.screen_mode = .altMode := by
  induction params with
  | nil =>
    intro s s' h hrun
    cases hrun
    exact ⟨rfl, h⟩
  | cons g rest ih =>
    intro s s' h hrun
    unfold applyKCodes at hrun
    set s? := if g = [] ∨ g = [0] then (s.screen.erase_to_end_of_line).map s.set_screen
      else if g = [1] then (s.screen.erase_to_start_of_line).map s.set_screen
      else if g = [2] then (s.screen.erase_line).map s.set_screen
      else some s with hdef
    have hmid : ∀ s1 : State, s? = some s1 →
        s1.scrollback = s.scrollback ∧ s1.screen_mode = .altMode := by
      intro s1 hs1
      rw [hdef] at hs1
      split at hs1
      · obtain ⟨sc, _, rfl⟩ := Option.map_eq_some'.mp hs1
        exact set_screen_alt s h sc
      · split at hs1
        · obtain ⟨sc, _, rfl⟩ := Option.map_eq_some'.mp hs1
          exact set_screen_alt s h sc
        · split at hs1
          · obtain ⟨sc, _, rfl⟩ := Option.map_eq_some'.mp hs1
            exact set_screen_alt s h sc
          · cases hs1
            exact ⟨rfl, h⟩
    cases hs : s? with
    | none => rw [hs] at hrun; exact Option.noConfusion hrun
    | some s1 =>
      rw [hs] at hrun
      have h1 := hmid s1 hs
      have h2 := ih s1 s' h1.2 hrun
      exact ⟨h2.1.trans h1.1, h2.2⟩

theorem step_alt_preserves (s : State) (e : Event) (s' : State)
    (hmode : s.screen_mode = .altMode) (h49 : e.mentions1049 = false)
    (hrun : State.step s e = some s') :
    s'.scrollback = s.scrollback ∧ s'.screen_mode = .altMode := by
  cases e with
  | print c =>
    unfold State.step at hrun
    dsimp only at hrun
    cases hc : Cell.new? c s.cursor_attrs with
    | none => rw [hc] at hrun; exact Option.noConfusion hrun
    | some cell =>
      rw [hc] at hrun
      dsimp only at hrun
      cases hw : s.screen.write_at_cursor cell with
      | ok sc =>
        rw [hw] at hrun
        dsimp only at hrun
        rw [Option.some_inj] at hrun
        subst hrun
        exact set_screen_alt s hmode _
      | err sc =>
        rw [hw] at hrun
        dsimp only at hrun
        rw [Option.some_inj] at hrun
        subst hrun
        exact set_screen_alt s hmode _
      | panic => rw [hw] at hrun; exact Option.noConfusion hrun
  | execute b =>
    unfold State.step at hrun
    dsimp only at hrun
    by_cases ha : b = 0x0a
    · rw [if_pos ha, Option.some_inj] at hrun
      subst hrun
      exact set_screen_alt s hmode _
    · rw [if_neg ha] at hrun
      by_cases hd : b = 0x0d
      · rw [if_pos hd, Option.some_inj] at hrun
        subst hrun
        exact set_screen_alt s hmode _
      · rw [if_neg hd, Option.some_inj] at hrun
        subst hrun
        exact ⟨rfl, hmode⟩
  | oscDispatch params =>
    cases hrun
    exact ⟨rfl, hmode⟩
  | escDispatch ints ig b =>
    unfold State.step at hrun
    dsimp only at hrun
    by_cases hig : ig = true
    · rw [if_pos hig, Option.some_inj] at hrun
      subst hrun
      exact ⟨rfl, hmode⟩
    · rw [if_neg hig] at hrun
      by_cases h7 : ints = [] ∧ b = 0x37
      · rw [if_pos h7, Option.some_inj] at hrun
        subst hrun
        exact set_screen_alt s hmode _
      · rw [if_neg h7] at hrun
        by_cases h8 : ints = [] ∧ b = 0x38
        · rw [if_pos h8, Option.some_inj] at hrun
          subst hrun
          exact ⟨(set_screen_alt s hmode _).1, (set_screen_alt s hmode _).2⟩
        · rw [if_neg h8, Option.some_inj] at hrun
          subst hrun
          exact ⟨rfl, hmode⟩
  | csiDispatch params ints ig action =>
    unfold State.step at hrun
    dsimp only at hrun
    by_cases hig : ig = true
    · rw [if_pos hig, Option.some_inj] at hrun
      subst hrun
      exact ⟨rfl, hmode⟩
    rw [if_neg hig] at hrun
    by_cases hA : action = 'A'
    · rw [if_pos hA, Option.some_inj] at hrun
      subst hrun
      exact set_screen_alt s hmode _
    rw [if_neg hA] at hrun
    by_cases hB : action = 'B'
    · rw [if_pos hB, Option.some_inj] at hrun
      subst hrun
      exact set_screen_alt s hmode _
    rw [if_neg hB] at hrun
    by_cases hC : action = 'C'
    · rw [if_pos hC, Option.some_inj] at hrun
      subst hrun
      exact set_screen_alt s hmode _
    rw [if_neg hC] at hrun
    by_cases hD : action = 'D'
    · rw [if_pos hD, Option.some_inj] at hrun
      subst hrun
      exact set_screen_alt s hmode _
    rw [if_neg hD] at hrun
    by_cases hE : action = 'E'
    · rw [if_pos hE, Option.some_inj] at hrun
      subst hrun
      exact set_screen_alt s hmode _
    rw [if_neg hE] at hrun
    by_cases hF : action = 'F'
    · rw [if_pos hF, Option.some_inj] at hrun
      subst hrun
      exact set_screen_alt s hmode _
    rw [if_neg hF] at hrun
    by_cases hG : action = 'G'
    · rw [if_pos hG, Option.some_inj] at hrun
      subst hrun
      exact set_screen_alt s hmode _
    rw [if_neg hG] at hrun
    by_cases hH : action = 'H'
    · rw [if_pos hH, Option.some_inj] at hrun
      subst hrun
      exact set_screen_alt s hmode _
    rw [if_neg hH] at hrun
    by_cases hJ : action = 'J'
    · rw [if_pos hJ] at hrun
      exact applyJCodes_alt params s s' hmode hrun
    rw [if_neg hJ] at hrun
    by_cases hK : action = 'K'
    · rw [if_pos hK] at hrun
      exact applyKCodes_alt params s s' hmode hrun
    rw [if_neg hK] at hrun
    by_cases hs' : action = 's'
    · rw [if_pos hs', Option.some_inj] at hrun
      subst hrun
      exact set_screen_alt s hmode _
    rw [if_neg hs'] at hrun
    by_cases hu : action = 'u'
    · rw [if_pos hu, Option.some_inj] at hrun
      subst hrun
      exact set_screen_alt s hmode _
    rw [if_neg hu] at hrun
    by_cases hh : action = 'h'
    · rw [if_pos hh] at hrun
      by_cases hints : ints = [0x3f]
      · rw [if_pos hints, Option.some_inj] at hrun
        subst hrun
        have hmem : [1049] ∉ params := by
          subst hh
          subst hints
          simp [Event.mentions1049] at h49
          exact h49
        rw [applyHCodes_no1049 s params hmem]
        exact ⟨rfl, hmode⟩
      · rw [if_neg hints, Option.some_inj] at hrun
        subst hrun
        exact ⟨rfl, hmode⟩
    rw [if_neg hh] at hrun
    by_cases hl : action = 'l'
    · rw [if_pos hl] at hrun
      by_cases hints : ints = [0x3f]
      · rw [if_pos hints, Option.some_inj] at hrun
        subst hrun
        have hmem : [1049] ∉ params := by
          subst hl
          subst hints
          simp [Event.mentions1049] at h49
          exact h49
        rw [applyLCodes_no1049 s params hmem]
        exact ⟨rfl, hmode⟩
      · rw [if_neg hints, Option.some_inj] at hrun
        subst hrun
        exact ⟨rfl, hmode⟩
    rw [if_neg hl] at hrun
    by_cases hm : action = 'm'
    · rw [if_pos hm, Option.some_inj] at hrun
      subst hrun
      exact ⟨rfl, hmode⟩
    rw [if_neg hm, Option.some_inj] at hrun
    subst hrun
    exact ⟨rfl, hmode⟩

theorem processEvents_alt (es : List Event) :
    ∀ s s' : State, s.screen_mode = .altMode →
      (∀ e ∈ es, e.mentions1049 = false) → processEvents s es = some s' →
      s'.scrollback = s.scrollback ∧ s'.screen_mode = .altMode := by
  induction es with
  | nil =>
    intro s s' h _ hrun
    cases hrun
    exact ⟨rfl, h⟩
  | cons e rest ih =>
    intro s s' h hall hrun
    rw [processEvents, List.foldlM_cons] at hrun
    cases hstep : State.step s e with
    | none => rw [hstep] at hrun; exact Option.noConfusion hrun
    | some s1 =>
      rw [hstep] at hrun
      have h1 := step_alt_preserves s e s1 h (hall e (by simp)) hstep
      have h2 := ih s1 s' h1.2 (fun e2 he2 => hall e2 (by simp [he2])) (by
        rw [processEvents]; exact hrun)
      exact ⟨h2.1.trans h1.1, h2.2⟩

/-- C8: processing `CSI ? 1049 h` replaces the alt screen with a fresh
screen (a buffer of empty lines at the current size with a reset cursor)
and makes it active; and while the alt screen is active, every sequence of
callbacks containing no further 1049 codes (and no resize, which is not a
`process` callback) leaves the scrollback screen's entire state — lines,
cursor and saved cursor — untouched, so the state after the matching
`CSI ? 1049 l` has exactly the scrollback state from before entering. -/
theorem c8_alt_screen_isolation (s : State) (es : List Event) (s' : State)
    (hmode : s.screen_mode = .altMode)
    (hes : ∀ e ∈ es, e.mentions1049 = false)
    (hrun : processEvents s es = some s') :
    s'.scrollback = s.scrollback ∧ s'.screen_mode = .altMode ∧
    State.step s' (.csiDispatch [[1049]] [0x3f] false 'l') =
      some { s' with screen_mode := .scrollbackMode } ∧
    ∀ t : State, State.step t (.csiDispatch [[1049]] [0x3f] false 'h') =
      some { t with altscreen := Screen.altNew t.altscreen.size,
                    screen_mode := .altMode } := by
  obtain ⟨h1, h2⟩ := processEvents_alt es s s' hmode hes hrun
  exact ⟨h1, h2, rfl, fun t => rfl⟩

/-- The concrete alt-mode state used by the C8 witness. -/
def c8wS : State := { State.new 2 ⟨2, 2⟩ with screen_mode := .altMode }

/-- C8 witness: the theorem applied to one printed character on a concrete
alt-mode 2×2 terminal. -/
theorem c8_alt_screen_isolation_witness :
    ∃ s' : State, processEvents c8wS [.print 'B'] = some s' ∧
      s'.scrollback = c8wS.scrollback := by
  have hrun : ∃ t : State, processEvents c8wS [.print 'B'] = some t := ⟨_, rfl⟩
  obtain ⟨t, ht⟩ := hrun
  exact ⟨t, ht,
    (c8_alt_screen_isolation c8wS [.print 'B'] t rfl (by decide) ht).1⟩

/-- A line fits a grid of width `w` when it stores at most `w` cells. -/
def LineFits (w : Nat) (l : Line) : Prop := l.cells.length ≤ w

/-- Every stored line of a scrollback fits its width. -/
def Scrollback.Fits (sb : Scrollback) : Prop := ∀ l ∈ sb.buf, LineFits sb.size.width l

theorem set_cell_fits (l : Line) (w col : Nat) (c : Cell) (l' : Line)
    (h : l.set_cell w col c = .ok l') (hl : LineFits w l) : LineFits w l' := by
  unfold Line.set_cell at h
  split at h
  · exact Except.noConfusion h
  · next hcol =>
    split at h
    · next hge =>
      cases h
      unfold LineFits at *
      simp only [List.length_append, List.length_replicate, List.length_cons,
        List.length_nil]
      omega
    · next hge =>
      cases h
      unfold LineFits at *
      simpa using hl

theorem insert_character_fits (l : Line) (w col n : Nat) (l' : Line)
    (h : l.insert_character w col n = some l') : LineFits w l' := by
  unfold Line.insert_character at h
  split at h
  · cases h
    unfold LineFits
    simp
  · exact Option.noConfusion h

theorem delete_character_fits (l : Line) (w col n : Nat) (attrs : Attrs) (l' : Line)
    (h : l.delete_character w col attrs n = some l') (hl : LineFits w l) : LineFits w l' := by
  unfold Line.delete_character at h
  split at h
  · next hcol =>
    cases h
    unfold LineFits at *
    dsimp only
    simp only [List.length_append, List.length_take, List.length_drop,
      List.length_replicate]
    omega
  · exact Option.noConfusion h

theorem erase_fits (l : Line) (w : Nat) (sec : LineSection) (hl : LineFits w l) :
    LineFits w (l.erase sec) := by
  unfold LineFits at *
  cases sec with
  | startTo col =>
    simp only [Line.erase, List.length_append, List.length_replicate, List.length_drop]
    omega
  | toEnd col =>
    simp only [Line.erase, List.length_take]
    omega
  | whole => simp [Line.erase]

theorem modify_line_fits (sb : Scrollback) (row : Nat) (f : Line → Line)
    (hf : ∀ l, LineFits sb.size.width l → LineFits sb.size.width (f l))
    (h : sb.Fits) : (sb.modify_line row f).Fits := by
  unfold Scrollback.modify_line
  split
  · exact h
  · intro l hl
    rcases List.mem_or_eq_of_mem_set hl with hmem | rfl
    · exact h l hmem
    · apply hf
      by_cases hidx : sb.in_view_len - 1 - row < sb.buf.length
      · rw [List.getD_eq_getElem?_getD, List.getElem?_eq_getElem hidx]
        exact h _ (List.getElem_mem hidx)
      · rw [List.getD_eq_getElem?_getD, List.getElem?_eq_none (by omega)]
        exact Nat.zero_le _

theorem scrollback_set_fits (sb : Scrollback) (pos : Pos) (cell : Cell)
    (sb' : Scrollback) (h : sb.set pos cell = .ok sb') (hf : sb.Fits) : sb'.Fits := by
  unfold Scrollback.set at h
  split at h
  · cases h
    exact hf
  · next hrow =>
    dsimp only at h
    cases hset : (sb.buf.getD (sb.in_view_len - 1 - pos.row) Line.new).set_cell
        sb.size.width pos.col cell with
    | error e => rw [hset] at h; exact Except.noConfusion h
    | ok l =>
      rw [hset] at h
      dsimp only at h
      cases h
      intro x hx
      rcases List.mem_or_eq_of_mem_set hx with hmem | rfl
      · exact hf x hmem
      · apply set_cell_fits _ _ _ _ _ hset
        by_cases hidx : sb.in_view_len - 1 - pos.row < sb.buf.length
        · rw [List.getD_eq_getElem?_getD, List.getElem?_eq_getElem hidx]
          exact hf _ (List.getElem_mem hidx)
        · rw [List.getD_eq_getElem?_getD, List.getElem?_eq_none (by omega)]
          exact Nat.zero_le _

theorem ensure_lines_fits (sb sb' : Scrollback) (h : sb.ensure_lines = some sb')
    (hf : sb.Fits) : sb'.Fits := by
  unfold Scrollback.ensure_lines at h
  split at h
  · cases h
    exact hf
  · split at h
    · cases h
      intro l hl
      rcases List.mem_append.mp hl with hmem | hmem
      · rw [List.eq_of_mem_replicate hmem]
        exact Nat.zero_le _
      · exact hf l hmem
    · exact Option.noConfusion h

theorem add_line_fits (sb : Scrollback) (l : Line) (hl : LineFits sb.size.width l)
    (hf : sb.Fits) : (sb.add_line l).Fits := by
  intro x hx
  have hx2 : x ∈ l :: sb.buf := List.take_subset _ _ hx
  rcases hx2 with _ | hmem
  · exact hl
  · exact hf x (by assumption)

theorem place_pads_fits (npad : Nat) : ∀ (sb sb' : Scrollback), sb.Fits →
    (sb.place_pads npad = .ok sb' ∨ sb.place_pads npad = .err sb') → sb'.Fits := by
  induction npad with
  | zero =>
    intro sb sb' hf h
    rcases h with h | h
    · cases h; exact hf
    · exact WriteRes.noConfusion h
  | succ k ih =>
    intro sb sb' hf h
    unfold Scrollback.place_pads at h
    split at h
    · rcases h with h | h
      · exact WriteRes.noConfusion h
      · exact WriteRes.noConfusion h
    · cases hset : sb.set sb.cursor Cell.wide_pad with
      | error e =>
        rw [hset] at h
        rcases h with h | h
        · exact WriteRes.noConfusion h
        · cases h; exact hf
      | ok sb2 =>
        rw [hset] at h
        dsimp only at h
        have hf2 : Scrollback.Fits
            { sb2 with cursor := ⟨sb2.cursor.row, sb2.cursor.col + 1⟩ } :=
          scrollback_set_fits sb _ _ sb2 hset hf
        exact ih _ sb' hf2 h

theorem place_fits (sb : Scrollback) (cell : Cell) (sb' : Scrollback) (hf : sb.Fits)
    (h : sb.place cell = .ok sb' ∨ sb.place cell = .err sb') : sb'.Fits := by
  unfold Scrollback.place at h
  cases hset : sb.set sb.cursor cell with
  | error e =>
    rw [hset] at h
    rcases h with h | h
    · exact WriteRes.noConfusion h
    · cases h; exact hf
  | ok sb2 =>
    rw [hset] at h
    dsimp only at h
    have hf2 : Scrollback.Fits
        { sb2 with cursor := ⟨sb2.cursor.row, sb2.cursor.col + 1⟩ } :=
      scrollback_set_fits sb _ _ sb2 hset hf
    exact place_pads_fits _ _ sb' hf2 h

theorem scrollback_write_fits (sb : Scrollback) (cell : Cell) (sb' : Scrollback)
    (hf : sb.Fits)
    (h : sb.write_at_cursor cell = .ok sb' ∨ sb.write_at_cursor cell = .err sb') :
    sb'.Fits := by
  unfold Scrollback.write_at_cursor at h
  split at h
  · rcases h with h | h
    · exact WriteRes.noConfusion h
    · cases h; exact hf
  · cases hens : sb.ensure_lines with
    | none =>
      rw [hens] at h
      rcases h with h | h <;> exact WriteRes.noConfusion h
    | some sb1 =>
      rw [hens] at h
      have hf1 : sb1.Fits := ensure_lines_fits sb sb1 hens hf
      dsimp only at h
      split at h
      · split at h
        · rcases h with h | h
          · exact WriteRes.noConfusion h
          · cases h; exact hf1
        · have hf2 : (sb1.modify_line sb1.cursor.row fun l =>
              { l with is_wrapped := true }).Fits :=
            modify_line_fits sb1 _ _ (fun l hl => hl) hf1
          split at h
          · refine place_fits _ cell sb' ?_ h
            exact add_line_fits _ _ (Nat.zero_le _) (fun x hx => hf2 x hx)
          · refine place_fits _ cell sb' ?_ h
            exact fun x hx => hf2 x hx
      · exact place_fits sb1 cell sb' hf1 h

theorem alt_write_fits (a : AltScreen) (size : Size) (cursor : Pos) (cell : Cell)
    (a' : AltScreen) (p : Pos)
    (hf : ∀ l ∈ a.buf, LineFits size.width l)
    (h : a.write_at_cursor size cursor cell = .ok (a', p) ∨
      a.write_at_cursor size cursor cell = .err (a', p)) :
    ∀ l ∈ a'.buf, LineFits size.width l := by
  unfold AltScreen.write_at_cursor at h
  split at h
  · rcases h with h | h
    · exact WriteRes.noConfusion h
    · cases h
      exact hf
  · split at h
    · rcases h with h | h <;> exact WriteRes.noConfusion h
    · next hrow =>
      cases hset : (a.buf.getD cursor.row Line.new).set_cell size.width cursor.col cell with
      | error e =>
        rw [hset] at h
        dsimp only at h
        rcases h with h | h
        · exact WriteRes.noConfusion h
        · cases h
          exact hf
      | ok l =>
        rw [hset] at h
        dsimp only at h
        have hbuf : ∀ x ∈ a.buf.set cursor.row l, LineFits size.width x := by
          intro x hx
          rcases List.mem_or_eq_of_mem_set hx with hmem | rfl
          · exact hf x hmem
          · apply set_cell_fits _ _ _ _ _ hset
            by_cases hidx : cursor.row < a.buf.length
            · rw [List.getD_eq_getElem?_getD, List.getElem?_eq_getElem hidx]
              exact hf _ (List.getElem_mem hidx)
            · rw [List.getD_eq_getElem?_getD, List.getElem?_eq_none (by omega)]
              exact Nat.zero_le _
        split at h
        · split at h
          · rcases h with h | h
            · cases h
              intro x hx
              rcases List.mem_append.mp hx with hmem | hmem
              · exact hbuf x (List.drop_subset _ _ hmem)
              · rw [List.mem_singleton] at hmem
                subst hmem
                exact Nat.zero_le _
            · exact WriteRes.noConfusion h
          · rcases h with h | h
            · cases h
              exact hbuf
            · exact WriteRes.noConfusion h
        · rcases h with h | h
          · cases h
            exact hbuf
          · exact WriteRes.noConfusion h

/-- The shape of `slice::chunks` output: every chunk except the last has
exactly `w` cells, the last has at most `w`. -/
def ChunksShape (w : Nat) : List (List Cell) → Prop
  | [] => True
  | [c] => c.length ≤ w
  | c :: c2 :: rest => c.length = w ∧ ChunksShape w (c2 :: rest)

theorem chunksOfCellsGo_shape (w : Nat) (hw : 0 < w) :
    ∀ (fuel : Nat) (cs : List Cell), cs.length ≤ fuel →
      ChunksShape w (chunksOfCellsGo w fuel cs) := by
  intro fuel
  induction fuel with
  | zero =>
    intro cs hlen
    have h0 : cs = [] := List.length_eq_zero.mp (Nat.le_zero.mp hlen)
    subst h0
    exact trivial
  | succ k ih =>
    intro cs hlen
    cases cs with
    | nil => exact trivial
    | cons c rest =>
      show ChunksShape w ((c :: rest).take w :: chunksOfCellsGo w k ((c :: rest).drop w))
      have hdrop : ((c :: rest).drop w).length ≤ k := by
        simp only [List.length_drop, List.length_cons]
        simp only [List.length_cons] at hlen
        omega
      have hgo := ih ((c :: rest).drop w) hdrop
      cases hg : chunksOfCellsGo w k ((c :: rest).drop w) with
      | nil =>
        show ((c :: rest).take w).length ≤ w
        exact List.length_take_le _ _
      | cons e es =>
        rw [hg] at hgo
        refine ⟨?_, hgo⟩
        have hne : (c :: rest).drop w ≠ [] := by
          intro hnil
          rw [hnil] at hg
          have hempty : chunksOfCellsGo w k ([] : List Cell) = [] := by
            cases k <;> rfl
          rw [hempty] at hg
          exact List.noConfusion hg
        have hlong : w < (c :: rest).length := by
          by_contra hcon
          exact hne (List.drop_eq_nil_of_le (by omega))
        simp only [List.length_take]
        omega

theorem chunksOfCells_shape (w : Nat) (cs : List Cell) :
    ChunksShape w (chunksOfCells w cs) := by
  unfold chunksOfCells
  split
  · exact trivial
  · next hne => exact chunksOfCellsGo_shape w (by omega) cs.length cs le_rfl

theorem inner_fits (w : Nat) (rest : List Line) :
    ∀ (cs : List (List Cell)) (acc : List Line), ChunksShape w cs →
      (∀ l ∈ acc, LineFits w l) →
      (∀ l ∈ (Reflow.inner w rest acc Line.new cs).1, LineFits w l) ∧
      (Reflow.inner w rest acc Line.new cs).2.cells.length ≤ w := by
  intro cs
  induction cs with
  | nil =>
    intro acc _ hacc
    exact ⟨hacc, Nat.zero_le w⟩
  | cons c cs2 ih =>
    intro acc hshape hacc
    cases cs2 with
    | nil =>
      have hc : c.length ≤ w := hshape
      unfold Reflow.inner
      dsimp only
      split
      · next heq =>
        refine ⟨?_, Nat.zero_le w⟩
        intro l hl
        rcases hl with _ | hmem
        · simpa [LineFits] using Nat.le_of_eq heq
        · exact hacc l (by assumption)
      · next hne =>
        refine ⟨hacc, ?_⟩
        simpa using hc
    | cons c2 cs3 =>
      obtain ⟨hc, hrest⟩ := hshape
      unfold Reflow.inner
      dsimp only
      have hlen : (Line.new.cells ++ c).length = w := by simpa [Line.new] using hc
      rw [if_pos hlen]
      apply ih (_ :: acc) hrest
      intro l hl
      rcases hl with _ | hmem
      · exact Nat.le_of_eq hlen
      · exact hacc l (by assumption)

theorem chunk_loop_fits (w : Nat) :
    ∀ (chunks : List Line) (acc : List Line) (line : Line),
      (∀ l ∈ acc, LineFits w l) → line.cells.length ≤ w →
      (∀ l ∈ (Reflow.chunk_loop w acc line chunks).1, LineFits w l) ∧
      (Reflow.chunk_loop w acc line chunks).2.cells.length ≤ w := by
  intro chunks
  induction chunks with
  | nil =>
    intro acc line hacc hline
    exact ⟨hacc, hline⟩
  | cons chunk rest ih =>
    intro acc line hacc hline
    unfold Reflow.chunk_loop
    dsimp only
    split
    · next hlt =>
      split
      · next heq =>
        apply ih
        · intro l hl
          rcases hl with _ | hmem
          · exact Nat.le_of_eq heq
          · exact hacc l (by assumption)
        · exact Nat.zero_le w
      · next hne =>
        apply ih
        · exact hacc
        · simp only [List.length_append]
          omega
    · next hge =>
      have htake : (chunk.cells.take (w - line.cells.length)).length =
          w - line.cells.length := by
        simp only [List.length_take]
        omega
      have hfull : (line.cells ++ chunk.cells.take (w - line.cells.length)).length ≤ w := by
        simp only [List.length_append, htake]
        omega
      have hinner := inner_fits w rest
        (chunksOfCells w (chunk.cells.drop (w - line.cells.length)))
        (⟨line.cells ++ chunk.cells.take (w - line.cells.length),
          decide (chunk.cells.length > w - line.cells.length) || !rest.isEmpty⟩ :: acc)
        (chunksOfCells_shape w _)
        (by
          intro l hl
          rcases hl with _ | hmem
          · exact hfull
          · exact hacc l (by assumption))
      exact ih _ _ hinner.1 hinner.2

theorem outer_fits (w : Nat) :
    ∀ (input logical acc : List Line), (∀ l ∈ acc, LineFits w l) →
      ∀ l ∈ Reflow.outer w input logical acc, LineFits w l := by
  intro input
  induction input with
  | nil =>
    intro logical acc hacc
    exact hacc
  | cons hd tl ih =>
    intro logical acc hacc
    unfold Reflow.outer
    dsimp only
    split
    · exact ih _ acc hacc
    · have hcl := chunk_loop_fits w (logical ++ [hd]) acc Line.new hacc (Nat.zero_le _)
      split
      · apply ih
        intro l hl
        rcases hl with _ | hmem
        · exact hcl.2
        · exact hcl.1 l (by assumption)
      · exact ih _ _ hcl.1

/-- C9: `cells.len ≤ width` holds after every write. In order: `set_cell`
preserves the bound; `insert_character` establishes it outright (it ends by
truncating to the width); `delete_character` preserves it;
`erase` preserves it for each section; a scrollback `write_at_cursor`
(including the error returns that leave a partially updated state) keeps
every stored line within the grid width, as does the alt screen's
`write_at_cursor`; and every line produced by `reflow` to a positive width
fits the new width. -/
theorem c9_line_width_invariant :
    (∀ (l : Line) (w col : Nat) (c : Cell) (l' : Line),
      l.set_cell w col c = .ok l' → l.cells.length ≤ w → l'.cells.length ≤ w) ∧
    (∀ (l : Line) (w col n : Nat) (l' : Line),
      l.insert_character w col n = some l' → l'.cells.length ≤ w) ∧
    (∀ (l : Line) (w col n : Nat) (attrs : Attrs) (l' : Line),
      l.delete_character w col attrs n = some l' → l.cells.length ≤ w →
      l'.cells.length ≤ w) ∧
    (∀ (l : Line) (w : Nat) (sec : LineSection),
      l.cells.length ≤ w → (l.erase sec).cells.length ≤ w) ∧
    (∀ (sb : Scrollback) (cell : Cell) (sb' : Scrollback),
      (∀ l ∈ sb.buf, l.cells.length ≤ sb.size.width) →
      (sb.write_at_cursor cell = .ok sb' ∨ sb.write_at_cursor cell = .err sb') →
      ∀ l ∈ sb'.buf, l.cells.length ≤ sb'.size.width) ∧
    (∀ (a : AltScreen) (size : Size) (cursor : Pos) (cell : Cell) (a' : AltScreen) (p : Pos),
      (∀ l ∈ a.buf, l.cells.length ≤ size.width) →
      (a.write_at_cursor size cursor cell = .ok (a', p) ∨
        a.write_at_cursor size cursor cell = .err (a', p)) →
      ∀ l ∈ a'.buf, l.cells.length ≤ size.width) ∧
    (∀ w : Nat, 0 < w → ∀ (input : List Line) (l : Line),
      l ∈ Reflow.outer w input [] [] → l.cells.length ≤ w) := by
  refine ⟨?_, ?_, ?_, ?_, ?_, ?_, ?_⟩
  · exact fun l w col c l' h hl => set_cell_fits l w col c l' h hl
  · exact fun l w col n l' h => insert_character_fits l w col n l' h
  · exact fun l w col n attrs l' h hl => delete_character_fits l w col n attrs l' h hl
  · exact fun l w sec hl => erase_fits l w sec hl
  · exact fun sb cell sb' hf h => scrollback_write_fits sb cell sb' hf h
  · exact fun a size cursor cell a' p hf h => alt_write_fits a size cursor cell a' p hf h
  · exact fun w _ input l hl => outer_fits w input [] [] (by simp) l hl

/-- C9 witness: the `set_cell` conjunct applied on a concrete line. -/
theorem c9_line_width_invariant_witness :
    (Line.new.set_cell 3 1 (chCell 'a') =
      .ok ⟨[Cell.emptyCell, chCell 'a'], false⟩) ∧
    (⟨[Cell.emptyCell, chCell 'a'], false⟩ : Line).cells.length ≤ 3 := by
  refine ⟨rfl, ?_⟩
  exact c9_line_width_invariant.1 Line.new 3 1 (chCell 'a') _ rfl (by decide)

/-- C10: for the cursor-movement actions A through G, an explicit first
parameter 0 is dispatched identically to an absent parameter, namely as the
default count 1, because `p1_or` maps both a missing and a zero first
parameter to the default; in particular `CSI 0 B` from the home position of
a fresh 5×5 terminal moves the cursor to row 1 (down exactly one row). -/
theorem c10_zero_param_is_default (s : State) (a : Char)
    (ha : a ∈ ['A', 'B', 'C', 'D', 'E', 'F', 'G']) :
    s.step (.csiDispatch [[0]] [] false a) = s.step (.csiDispatch [[1]] [] false a) ∧
    s.step (.csiDispatch [] [] false a) = s.step (.csiDispatch [[1]] [] false a) ∧
    p1_or [[0]] 1 = 1 ∧ p1_or [] 1 = 1 ∧
    ((State.new 5 ⟨5, 5⟩).step (.csiDispatch [[0]] [] false 'B')).map
      (fun t => t.screen.cursor.row) = some 1 := by
  fin_cases ha <;> exact ⟨rfl, rfl, rfl, rfl, rfl⟩

/-- C10 witness: the theorem applied at a concrete state and action. -/
theorem c10_zero_param_is_default_witness :
    (State.new 3 ⟨3, 3⟩).step (.csiDispatch [[0]] [] false 'B') =
      (State.new 3 ⟨3, 3⟩).step (.csiDispatch [[1]] [] false 'B') :=
  (c10_zero_param_is_default (State.new 3 ⟨3, 3⟩) 'B' (by decide)).1

end VT
